import Mathlib

/-!
Verification development for the spotify-downloader-bot repository.

The Python sources are shallowly embedded as executable Lean definitions:
pure string utilities become functions on `List Char` / `String`, the
stateful chat flows become trace-producing functions over abstract
download/send oracles, and the nondeterministic `random.sample` call is
modelled as a relation over the index sequence chosen by the RNG.
-/

namespace SpotBot

/-! ## Source waterfall (src/bot/render_friendly_downloader.py)

`RenderFriendlyDownloader.download_track` tries an ordered list of source
strategies (Internet Archive, Free Music Archive, Jamendo), each called with
`(track_name, artist_name, quality)` and returning an optional local file;
the first non-`None` result is returned.  If every source fails, the code
falls back to `_create_demo_audio`, which synthesizes a placeholder file. -/

/-- A source strategy: given title, artist and quality, optionally produce a
local file path (`None` in Python becomes `Option.none`). -/
def Src : Type := String → String → String → Option String

/-- The sequential fallback chain of `download_track` lines 30-47: each source
is tried in order; the first file returned wins; when the list is exhausted the
demo-audio fallback runs. -/
def download_track (t a q : String) : List Src → Src → Option String
  | [], demo => demo t a q
  | s :: rest, demo =>
    match s t a q with
    | some f => some f
    | none => download_track t a q rest demo

/-- Number of sources actually invoked by the sequential chain: each source in
the list is called until one succeeds (the demo fallback is not counted). -/
def sourcesInvoked (t a q : String) : List Src → Nat
  | [] => 0
  | s :: rest =>
    match s t a q with
    | some _ => 1
    | none => 1 + sourcesInvoked t a q rest

/-- `RenderFriendlyDownloader.download_track` specialised to its three real
sources (Internet Archive, Free Music Archive, Jamendo) plus the demo-audio
fallback, mirroring lines 30-47 of render_friendly_downloader.py. -/
def renderDownloadTrack (t a q : String) (ia fma jam demo : Src) : Option String :=
  download_track t a q [ia, fma, jam] demo

/-! ## YouTube downloader (src/bot/simple_youtube_downloader.py) -/

/-- The six search queries built by `search_and_download` (lines 68-75) from
the track name and the artist name, in order. -/
def searchQueries (track artist : String) : List String :=
  [ "\"" ++ track ++ "\" \"" ++ artist ++ "\" official audio"
  , "\"" ++ track ++ "\" \"" ++ artist ++ "\" official"
  , "\"" ++ track ++ "\" by \"" ++ artist ++ "\""
  , artist ++ " - " ++ track ++ " official audio"
  , artist ++ " " ++ track ++ " lyrics"
  , track ++ " " ++ artist ++ " music video" ]

/-- The final fallback query of `search_and_download` (line 89). -/
def simpleQuery (track artist : String) : String :=
  track ++ " " ++ artist

/-- First non-`none` element of a list of optional results (the `for` loop
with `break` at lines 80-85). -/
def firstSome : List (Option α) → Option α
  | [] => none
  | r :: rs =>
    match r with
    | some x => some x
    | none => firstSome rs

/-- The locator found by `search_and_download`: the first query that yields a
video URL, falling back to the simple query (lines 80-90).  `S` is the
`_search_youtube` oracle. -/
def locateUrl (track artist : String) (S : String → Option String) : Option String :=
  match firstSome ((searchQueries track artist).map S) with
  | some u => some u
  | none => S (simpleQuery track artist)

/-- `SimpleYouTubeDownloader.search_and_download` (lines 64-102): locate a
video URL with the query cascade, then download it with `_download_audio`
(oracle `D`); return `None` when no URL is found or the download fails. -/
def search_and_download (track artist : String)
    (S : String → Option String) (D : String → Option String) : Option String :=
  match locateUrl track artist S with
  | none => none
  | some u => D u

/-! ## String utilities (src/utils/helpers.py) -/

/-- Characters matched by Python's `\s` / stripped by `str.strip()`
(ASCII whitespace; the Unicode white space characters Python additionally
accepts do not occur in any input considered here). -/
def isPySpace (c : Char) : Bool :=
  c = ' ' || c = '\t' || c = '\n' || c = '\r' || c = Char.ofNat 11 || c = Char.ofNat 12

/-- The characters removed by `clean_filename`'s first substitution,
`re.sub(r'[<>:"/\\|?*]', '', filename)`. -/
def isBadChar (c : Char) : Bool :=
  c = '<' || c = '>' || c = ':' || c = '"' || c = '/' || c = '\\' ||
  c = '|' || c = '?' || c = '*'

/-- `re.sub(r'[<>:"/\\|?*]', '', filename)`: drop the illegal characters. -/
def stripBad (s : List Char) : List Char :=
  s.filter (fun c => !isBadChar c)

/-- `re.sub(r'[\s]+', ' ', filename)`: replace every maximal run of
whitespace by a single space. -/
def collapseWs : List Char → List Char
  | [] => []
  | [c] => if isPySpace c then [' '] else [c]
  | c :: d :: cs =>
    if isPySpace c then
      if isPySpace d then collapseWs (d :: cs)
      else ' ' :: collapseWs (d :: cs)
    else c :: collapseWs (d :: cs)

/-- `str.strip()`: drop leading and trailing whitespace. -/
def pyStrip (s : List Char) : List Char :=
  ((s.dropWhile isPySpace).reverse.dropWhile isPySpace).reverse

/-- `clean_filename` (helpers.py lines 21-32): strip illegal characters,
collapse whitespace runs, trim, truncate to 100 characters, and substitute
"untitled" for an empty result. -/
def clean_filename (s : List Char) : List Char :=
  let f1 := stripBad s
  let f2 := collapseWs f1
  let f3 := pyStrip f2
  let f4 := if 100 < f3.length then f3.take 100 else f3
  if f4 = [] then "untitled".data else f4

/-- Checker for collapsed strings: every whitespace character is the literal
space and no two adjacent characters are both whitespace (last character may
be a space). -/
def collapsedOk : List Char → Bool
  | [] => true
  | [c] => !isPySpace c || c = ' '
  | c :: d :: cs =>
    (!isPySpace c || (c = ' ' && !isPySpace d)) && collapsedOk (d :: cs)

/-! ## Link classifier (src/bot/spotify_handler.py `extract_spotify_id`)

Each Python pattern is a literal prefix followed by `([a-zA-Z0-9]+)`, applied
with `re.search`: the regex matches at the leftmost position where the literal
occurs immediately followed by at least one alphanumeric character, and the
greedy `+` captures the maximal alphanumeric run there. -/

/-- `[a-zA-Z0-9]`. -/
def isAlnum (c : Char) : Bool :=
  ('a' ≤ c && c ≤ 'z') || ('A' ≤ c && c ≤ 'Z') || ('0' ≤ c && c ≤ '9')

/-- Match a literal pattern at the head of a string, returning the remainder. -/
def stripPref : List Char → List Char → Option (List Char)
  | [], s => some s
  | _ :: _, [] => none
  | p :: ps, c :: cs => if p = c then stripPref ps cs else none

/-- `re.search` for a pattern of the form `literal([a-zA-Z0-9]+)`: scan left
to right; at the first position where the literal matches and is followed by
at least one alphanumeric character, capture the maximal alphanumeric run. -/
def reSearch (pat : List Char) : List Char → Option (List Char)
  | [] => none
  | c :: cs =>
    match stripPref pat (c :: cs) with
    | some rest =>
      if rest.takeWhile isAlnum = [] then reSearch pat cs
      else some (rest.takeWhile isAlnum)
    | none => reSearch pat cs

/-- True when the pattern provably fails to match at the head of `t` because
of a character mismatch inside the compared region. -/
def mismatches : List Char → List Char → Bool
  | [], _ => false
  | _, [] => false
  | p :: ps, c :: cs => if p = c then mismatches ps cs else true

/-- True when every nonempty suffix of `s` has a character mismatch with the
pattern inside `s` itself, so the pattern cannot match at any position of
`s ++ anything` that starts inside `s`. -/
def scanKo (pat : List Char) : List Char → Bool
  | [] => true
  | c :: rest => mismatches pat (c :: rest) && scanKo pat rest

/-- The three track patterns of `extract_spotify_id` (lines 33-37), literal
parts only, in source order. -/
def trackPats : List (List Char) :=
  ["open.spotify.com/track/".data, "spotify.com/track/".data, "spotify:track:".data]

/-- Album patterns (lines 38-42). -/
def albumPats : List (List Char) :=
  ["open.spotify.com/album/".data, "spotify.com/album/".data, "spotify:album:".data]

/-- Playlist patterns (lines 43-47). -/
def playlistPats : List (List Char) :=
  ["open.spotify.com/playlist/".data, "spotify.com/playlist/".data, "spotify:playlist:".data]

/-- Try a pattern list in order, returning the first captured id. -/
def tryPats : List (List Char) → List Char → Option (List Char)
  | [], _ => none
  | p :: ps, s =>
    match reSearch p s with
    | some i => some i
    | none => tryPats ps s

/-- `SpotifyHandler.extract_spotify_id` (lines 30-56): try the track, album
and playlist pattern groups in insertion order; `(None, None)` becomes
`Option.none`. -/
def extractSpotifyId (s : List Char) : Option (String × List Char) :=
  match tryPats trackPats s with
  | some i => some ("track", i)
  | none =>
    match tryPats albumPats s with
    | some i => some ("album", i)
    | none =>
      match tryPats playlistPats s with
      | some i => some ("playlist", i)
      | none => none

/-! ## Artwork selection (src/bot/spotify_handler.py `_get_best_image`) -/

/-- A Spotify image candidate: width, height (after the `.get(..., 0)`
defaults) and url. -/
structure SpotImage where
  width : Nat
  height : Nat
  url : String
deriving DecidableEq, Repr

/-- The sort key `x.get('width', 0) * x.get('height', 0)`. -/
def area (x : SpotImage) : Nat := x.width * x.height

/-- Stable descending insertion: keep already-placed images that are strictly
larger; on ties the earlier element stays first, exactly like Python's stable
`sorted(..., reverse=True)`. -/
def insertDesc (x : SpotImage) : List SpotImage → List SpotImage
  | [] => [x]
  | y :: ys => if area y > area x then y :: insertDesc x ys else x :: y :: ys

/-- `sorted(images, key=lambda x: w*h, reverse=True)` as a stable descending
insertion sort. -/
def sortDesc : List SpotImage → List SpotImage
  | [] => []
  | x :: xs => insertDesc x (sortDesc xs)

/-- The image selected by `_get_best_image`, i.e. `sorted_images[0]`. -/
def bestEntry (l : List SpotImage) : Option SpotImage :=
  (sortDesc l).head?

/-- `_get_best_image` (lines 211-222): `None` on an empty list, otherwise the
url of the largest-area image. -/
def get_best_image (l : List SpotImage) : Option String :=
  match l with
  | [] => none
  | _ => (bestEntry l).map SpotImage.url

/-- Reference function: the first element of the list attaining the maximal
area (earlier element wins ties). -/
def firstMaxImg : List SpotImage → Option SpotImage
  | [] => none
  | x :: xs =>
    match firstMaxImg xs with
    | none => some x
    | some y => if area y > area x then some y else some x

/-! ## Catalog resolver metadata (src/bot/spotify_handler.py) -/

/-- A raw artist object from the catalog API (`artist.get('name', 'Unknown')`). -/
structure RawArtist where
  name : Option String
deriving DecidableEq, Repr

/-- `', '.join([artist.get('name', 'Unknown') for artist in ...])`. -/
def joinArtists (l : List RawArtist) : String :=
  String.intercalate ", " (l.map (fun a => a.name.getD "Unknown"))

/-- A raw nested track entry of an album's `tracks.items`. -/
structure RawAlbumTrack where
  id : Option String
  name : Option String
  artists : List RawArtist
  duration_ms : Option Nat
  track_number : Option Nat
deriving DecidableEq, Repr

/-- A raw album object (the fields `get_album_metadata` reads). -/
structure RawAlbum where
  id : Option String
  name : Option String
  artists : List RawArtist
  total_tracks : Option Nat
  release_date : Option String
  items : List RawAlbumTrack
deriving DecidableEq, Repr

/-- A per-track entry of the produced album metadata (lines 124-130). -/
structure AlbumTrackMeta where
  id : String
  name : String
  artists : String
  duration_ms : Nat
  track_number : Nat
deriving DecidableEq, Repr

/-- The album metadata dict produced by `get_album_metadata` (lines 133-145),
restricted to the defaulted scalar fields and the flattened track list. -/
structure AlbumMetadata where
  id : String
  name : String
  artists : String
  total_tracks : Nat
  release_date : String
  tracks : List AlbumTrackMeta
deriving DecidableEq, Repr

/-- `get_album_metadata` (lines 111-151): map every nested track entry, and
take `total_tracks` from the raw album's own `total_tracks` field. -/
def get_album_metadata (raw : RawAlbum) : AlbumMetadata :=
  { id := raw.id.getD ""
  , name := raw.name.getD "Unknown"
  , artists := joinArtists raw.artists
  , total_tracks := raw.total_tracks.getD 0
  , release_date := raw.release_date.getD "Unknown"
  , tracks := raw.items.map (fun t =>
      { id := t.id.getD ""
      , name := t.name.getD "Unknown"
      , artists := joinArtists t.artists
      , duration_ms := t.duration_ms.getD 0
      , track_number := t.track_number.getD 0 }) }

/-- A raw track nested in a playlist item (`item.get('track')`). -/
structure RawPTrack where
  type : Option String
  id : Option String
  name : Option String
  artists : List RawArtist
  album_name : Option String
  duration_ms : Option Nat
  popularity : Option Nat
deriving DecidableEq, Repr

/-- A raw playlist item; `track` is `None` for removed/local entries. -/
structure RawPlaylistItem where
  track : Option RawPTrack
deriving DecidableEq, Repr

/-- A raw playlist object (the fields `get_playlist_metadata` reads). -/
structure RawPlaylist where
  id : Option String
  name : Option String
  owner_display_name : Option String
  items : List RawPlaylistItem
deriving DecidableEq, Repr

/-- A per-track entry of the produced playlist metadata (lines 168-175). -/
structure PlaylistTrackMeta where
  id : String
  name : String
  artists : String
  album : String
  duration_ms : Nat
  popularity : Nat
deriving DecidableEq, Repr

/-- The playlist metadata dict produced by `get_playlist_metadata`
(lines 178-189): `total_tracks` is `len(tracks)` computed after skipping
non-track items. -/
structure PlaylistMetadata where
  id : String
  name : String
  owner : String
  total_tracks : Nat
  tracks : List PlaylistTrackMeta
deriving DecidableEq, Repr

/-- The skipping filter of lines 164-176: keep an item only when its nested
`track` exists and has `type == 'track'`. -/
def playlistTracksOf (items : List RawPlaylistItem) : List PlaylistTrackMeta :=
  items.filterMap (fun item =>
    match item.track with
    | none => none
    | some t =>
      if t.type = some "track" then
        some { id := t.id.getD ""
             , name := t.name.getD "Unknown"
             , artists := joinArtists t.artists
             , album := t.album_name.getD "Unknown"
             , duration_ms := t.duration_ms.getD 0
             , popularity := t.popularity.getD 0 }
      else none)

/-- `get_playlist_metadata` (lines 153-195). -/
def get_playlist_metadata (raw : RawPlaylist) : PlaylistMetadata :=
  let tracks := playlistTracksOf raw.items
  { id := raw.id.getD ""
  , name := raw.name.getD "Unknown"
  , owner := raw.owner_display_name.getD "Unknown"
  , total_tracks := tracks.length
  , tracks := tracks }

/-! ## Demo catalog (src/bot/demo_songs.py) -/

/-- A demo catalog entry. -/
structure DemoTrack where
  name : String
  artist : String
  spotify_url : String
deriving DecidableEq, Repr

/-- The fixed seed list `self.popular_tracks` (lines 9-70). -/
def popular_tracks : List DemoTrack :=
  [ ⟨"Never Gonna Give You Up", "Rick Astley", "https://open.spotify.com/track/4uLU6hMCjMI75M1A2tKUQC"⟩
  , ⟨"Shape of You", "Ed Sheeran", "https://open.spotify.com/track/7qiZfU4dY1lWllzX7mPBI3"⟩
  , ⟨"bad guy", "Billie Eilish", "https://open.spotify.com/track/2Fxmhks0bxGSBdJ92vM42m"⟩
  , ⟨"Circles", "Post Malone", "https://open.spotify.com/track/21jGcNKet2qwijlDFuPiPb"⟩
  , ⟨"Someone Like You", "Adele", "https://open.spotify.com/track/1zwMYTA5nlNjZxYrvBB2pV"⟩
  , ⟨"Bohemian Rhapsody", "Queen", "https://open.spotify.com/track/3z8h0TU7ReDPLIbEnYhWZb"⟩
  , ⟨"Imagine", "John Lennon", "https://open.spotify.com/track/7pKfPomDEeI4TPT6EOYjn9"⟩
  , ⟨"Sweet Child O Mine", "Guns N Roses", "https://open.spotify.com/track/7o2CTH4ctstm8TNelqjb51"⟩
  , ⟨"Stairway to Heaven", "Led Zeppelin", "https://open.spotify.com/track/5CQ30WqJwcep0pYcV4AMNc"⟩
  , ⟨"Hotel California", "Eagles", "https://open.spotify.com/track/40riOy7x9W7GXjyGp4pjAv"⟩
  , ⟨"Smells Like Teen Spirit", "Nirvana", "https://open.spotify.com/track/5ghIJDpPoe3CfHMGu71E6T"⟩
  , ⟨"Yesterday", "The Beatles", "https://open.spotify.com/track/3BQHpFgAp4l80e1XslIjNI"⟩ ]

/-- The clamp of `get_random_tracks` lines 75-76:
`if count > len(self.popular_tracks): count = len(...)`. -/
def clampCount (l : List α) (count : Nat) : Nat :=
  if count > l.length then l.length else count

/-- `random.sample(l, k)` modelled as a relation: the RNG picks `k` pairwise
distinct in-range indices and the result reads the list at those indices. -/
def isSampleOf (l : List α) (k : Nat) (r : List α) : Prop :=
  ∃ idxs : List Nat, idxs.Nodup ∧ idxs.length = k ∧
    (∀ i ∈ idxs, i < l.length) ∧ r = idxs.filterMap (fun i => l[i]?)

/-- `DemoSongs.get_random_tracks` (lines 72-82) as a relation between the
requested count and a possible result: the count is clamped to the list
length, then `random.sample` draws that many entries without replacement. -/
def get_random_tracks (l : List α) (count : Nat) (r : List α) : Prop :=
  isSampleOf l (clampCount l count) r

/-! ## Flow controller (src/bot/telegram_bot.py)

Each user-visible effect of the download flows becomes an `Event`; a flow is
a function from the metadata and the abstract per-track delivery oracle to
the ordered list of events it emits.  The oracle returns the local file path
when the track could be downloaded and sent, and `none` when the download or
the send failed (the inner `try` of the collection loops swallows both the
same way). -/

/-- Per-track entry of the collection flows (fields read by the loops). -/
structure TrackMeta where
  name : String
  artists : String
deriving DecidableEq, Repr

/-- User-visible effects of the download flows, in emission order. -/
inductive Event where
  /-- The initial "Processing album/playlist..." edit. -/
  | processing : Event
  /-- "No tracks found" edit. -/
  | emptyNotice : Event
  /-- The "Large Playlist Detected" truncation edit, with the original size. -/
  | truncNotice (total : Nat) : Event
  /-- The per-track "Progress: i/total" edit, with the track name. -/
  | progress (i : Nat) (name : String) (total : Nat) : Event
  /-- A successful `send_audio` with title and performer. -/
  | sendAudio (title performer : String) : Event
  /-- `os.remove` of a delivered local file. -/
  | fileRemove (f : String) : Event
  /-- The final "Download Complete" report with success and attempted counts. -/
  | finalReport (succ total : Nat) : Event
  /-- The single-track "Please wait, your music is being processed" edit. -/
  | waitNotice : Event
  /-- The single-track "Uploading your song" edit. -/
  | uploading : Event
  /-- The single-track "Download Complete!" edit. -/
  | completeNotice : Event
  /-- The single-track "Download Failed" edit (no source produced a file). -/
  | failNotice : Event
  /-- The outer exception handler's "Download error" edit. -/
  | errorNotice : Event
deriving DecidableEq, Repr

/-- The shared per-track loop of `download_album` / `download_playlist`
(lines 425-457 and 499-531): edit the progress message, attempt the
download+send, on success count it and remove the file, on failure continue.
Returns the emitted events and the success count. -/
def collLoop (dl : TrackMeta → Option String) (total : Nat) :
    List TrackMeta → Nat → Nat → List Event × Nat
  | [], _, succ => ([], succ)
  | t :: rest, i, succ =>
    match dl t with
    | some f =>
      let r := collLoop dl total rest (i + 1) (succ + 1)
      (Event.progress i t.name total :: Event.sendAudio t.name t.artists ::
        Event.fileRemove f :: r.1, r.2)
    | none =>
      let r := collLoop dl total rest (i + 1) succ
      (Event.progress i t.name total :: r.1, r.2)

/-- `SpotifyDownloaderBot.download_playlist` (lines 473-544): empty check,
truncation of playlists larger than 50 tracks (with the notice emitted before
the loop), the per-track loop, and the final report. -/
def download_playlist (dl : TrackMeta → Option String)
    (tracks : List TrackMeta) : List Event :=
  Event.processing ::
    (if tracks.length = 0 then [Event.emptyNotice]
     else if tracks.length > 50 then
       let ts := tracks.take 50
       let r := collLoop dl 50 ts 1 0
       Event.truncNotice tracks.length :: (r.1 ++ [Event.finalReport r.2 50])
     else
       let r := collLoop dl tracks.length tracks 1 0
       r.1 ++ [Event.finalReport r.2 tracks.length])

/-- `SpotifyDownloaderBot.download_album` (lines 411-471): identical loop but
with no size cap at all. -/
def download_album (dl : TrackMeta → Option String)
    (tracks : List TrackMeta) : List Event :=
  Event.processing ::
    (if tracks.length = 0 then [Event.emptyNotice]
     else
       let r := collLoop dl tracks.length tracks 1 0
       r.1 ++ [Event.finalReport r.2 tracks.length])

/-- `SpotifyDownloaderBot.download_single_track` (lines 348-409): `dl` is the
downloader's result; `sendOk` tells whether the outbound `send_audio` call
succeeds or raises.  When the send raises, control jumps to the outer
`except` handler, which only edits an error message: the `os.remove` cleanup
of the success path is never reached. -/
def download_single_track (dl : Option String) (sendOk : Bool)
    (meta : TrackMeta) : List Event :=
  Event.waitNotice ::
    (match dl with
     | some f =>
       if sendOk then
         [Event.uploading, Event.sendAudio meta.name meta.artists,
          Event.completeNotice, Event.fileRemove f]
       else
         [Event.uploading, Event.errorNotice]
     | none => [Event.failNotice])

/-- The names announced by the per-track progress edits of a trace, in order. -/
def progressNames (evs : List Event) : List String :=
  evs.filterMap (fun e =>
    match e with
    | Event.progress _ n _ => some n
    | _ => none)

/-! ## First-artist query construction (src/bot/simple_youtube_downloader.py
`download_track`, lines 232-254) -/

/-- `artists.split(',')[0].strip()` (line 239): the substring before the
first comma, trimmed. -/
def firstArtist (artists : String) : String :=
  ⟨pyStrip (artists.data.takeWhile (fun c => c ≠ ','))⟩

/-- Python's `str.split(',')` on the character list. -/
def splitOnComma : List Char → List (List Char)
  | [] => [[]]
  | c :: cs =>
    if c = ',' then [] :: splitOnComma cs
    else
      match splitOnComma cs with
      | [] => [[c]]
      | g :: gs => (c :: g) :: gs

/-- All queries `search_and_download` can send for a track, in order: the six
query templates followed by the simple fallback query. -/
def allQueries (track artist : String) : List String :=
  searchQueries track artist ++ [simpleQuery track artist]

/-- The queries used by `SimpleYouTubeDownloader.download_track` for a track
metadata value: the templates applied to the track name and the first artist
only. -/
def queriesUsed (m : TrackMeta) : List String :=
  allQueries m.name (firstArtist m.artists)

/-- The artist names after the first comma (trimmed), i.e. the part of the
`artists` field that `download_track` discards. -/
def remainingArtists (artists : String) : List String :=
  ((splitOnComma artists.data).drop 1).map (fun s => (⟨pyStrip s⟩ : String))

/-! ## Theorems -/

/-- C1: the source waterfall has first-success-wins semantics: for every
(title, artist, quality) input and every ordered list of source strategies,
if source 1 fails and source 2 succeeds, the returned local file is the one
produced by source 2, and no source after source 2 is ever invoked (exactly
the first two sources are called). -/
theorem c1_waterfall_first_success (t a q : String) (s1 s2 : Src)
    (rest : List Src) (demo : Src) (f : String)
    (h1 : s1 t a q = none) (h2 : s2 t a q = some f) :
    download_track t a q (s1 :: s2 :: rest) demo = some f ∧
    sourcesInvoked t a q (s1 :: s2 :: rest) = 2 := by
  constructor
  · simp [download_track, h1, h2]
  · simp [sourcesInvoked, h1, h2]

/-- Witness for C1: three mock sources where source 1 fails, source 2
succeeds with "song.mp3" and source 3 would also succeed; the result is
source 2's file and exactly two sources are invoked. -/
theorem c1_waterfall_first_success_witness :
    download_track "T" "A" "medium"
        [fun _ _ _ => none, fun _ _ _ => some "song.mp3", fun _ _ _ => some "other.mp3"]
        (fun _ _ _ => some "demo.mp3") = some "song.mp3" ∧
    sourcesInvoked "T" "A" "medium"
        [fun _ _ _ => none, fun _ _ _ => some "song.mp3", fun _ _ _ => some "other.mp3"] = 2 :=
  c1_waterfall_first_success "T" "A" "medium" _ _ _ _ "song.mp3" rfl rfl

/-- Helper for C2: the progress edits of the collection loop announce exactly
the processed tracks, in their original order. -/
theorem progressNames_collLoop (dl : TrackMeta → Option String) (total : Nat) :
    ∀ (ts : List TrackMeta) (i succ : Nat),
      progressNames (collLoop dl total ts i succ).1 = ts.map TrackMeta.name := by
  intro ts
  induction ts with
  | nil => intro i succ; simp [collLoop, progressNames]
  | cons t rest ih =>
    intro i succ
    cases h : dl t with
    | some f => simp [collLoop, h, progressNames, List.filterMap_cons] at ih ⊢; exact ih _ _
    | none => simp [collLoop, h, progressNames, List.filterMap_cons] at ih ⊢; exact ih _ _

/-- C2 (amended): for playlists the flow truncates to the first 50 tracks in
original order and emits the truncation notice before any per-track progress
message; albums are not truncated (see the counterexample). -/
theorem c2_playlist_truncation (dl : TrackMeta → Option String)
    (tracks : List TrackMeta) (h : 50 < tracks.length) :
    ∃ evs succ,
      download_playlist dl tracks =
        Event.processing :: Event.truncNotice tracks.length ::
          (evs ++ [Event.finalReport succ 50]) ∧
      progressNames evs = (tracks.take 50).map TrackMeta.name := by
  refine ⟨(collLoop dl 50 (tracks.take 50) 1 0).1,
          (collLoop dl 50 (tracks.take 50) 1 0).2, ?_, ?_⟩
  · have h0 : ¬ tracks.length = 0 := by omega
    simp only [download_playlist, if_neg h0, if_pos h]
  · exact progressNames_collLoop dl 50 (tracks.take 50) 1 0

/-- Witness for C2: a playlist of 51 identical tracks is over the cap and the
amended statement holds there. -/
theorem c2_playlist_truncation_witness :
    50 < (List.replicate 51 (⟨"t", "a"⟩ : TrackMeta)).length ∧
    ∃ evs succ,
      download_playlist (fun _ => none) (List.replicate 51 (⟨"t", "a"⟩ : TrackMeta)) =
        Event.processing ::
          Event.truncNotice (List.replicate 51 (⟨"t", "a"⟩ : TrackMeta)).length ::
          (evs ++ [Event.finalReport succ 50]) ∧
      progressNames evs =
        ((List.replicate 51 (⟨"t", "a"⟩ : TrackMeta)).take 50).map TrackMeta.name :=
  ⟨by decide, c2_playlist_truncation (fun _ => none) _ (by decide)⟩

/-- Counterexample for C2: an album of 51 tracks is processed in full — 51
per-track progress messages are emitted and no truncation notice appears, so
the claimed 50-track cap does not hold for albums. -/
theorem c2_album_not_truncated :
    (progressNames (download_album (fun _ => none)
        (List.replicate 51 (⟨"t", "a"⟩ : TrackMeta)))).length = 51 ∧
    Event.truncNotice 51 ∉
      download_album (fun _ => none) (List.replicate 51 (⟨"t", "a"⟩ : TrackMeta)) := by
  constructor <;> decide

/-- C3 (amended): the sequential chain returns `None` iff every real source
fails AND the demo fallback fails too; and the YouTube downloader returns
`None` iff no query locates a video or the located video's download fails. -/
theorem c3_failure_iff :
    (∀ (t a q : String) (sources : List Src) (demo : Src),
      download_track t a q sources demo = none ↔
        (∀ s ∈ sources, s t a q = none) ∧ demo t a q = none) ∧
    (∀ (t a : String) (S D : String → Option String),
      search_and_download t a S D = none ↔
        locateUrl t a S = none ∨ ∃ u, locateUrl t a S = some u ∧ D u = none) := by
  constructor
  · intro t a q sources demo
    induction sources with
    | nil => simp [download_track]
    | cons s rest ih =>
      cases h : s t a q with
      | some f =>
        simp only [download_track, h]
        constructor
        · intro hc; cases hc
        · rintro ⟨hall, -⟩
          have hs := hall s (by simp)
          rw [hs] at h; cases h
      | none =>
        simp only [download_track, h, ih]
        constructor
        · rintro ⟨hall, hd⟩
          exact ⟨fun s' hs' => by
            rcases List.mem_cons.mp hs' with rfl | hmem
            · exact h
            · exact hall s' hmem, hd⟩
        · rintro ⟨hall, hd⟩
          exact ⟨fun s' hs' => hall s' (List.mem_cons_of_mem _ hs'), hd⟩
  · intro t a S D
    cases h : locateUrl t a S with
    | none => simp [search_and_download, h]
    | some u => cases hd : D u <;> simp [search_and_download, h, hd]

/-- Counterexample for C3: when all three real sources fail but the demo
fallback succeeds, `download_track` returns the synthesized placeholder file,
not a failure. -/
theorem c3_substitute_file_on_total_failure :
    renderDownloadTrack "T" "A" "medium"
        (fun _ _ _ => none) (fun _ _ _ => none) (fun _ _ _ => none)
        (fun _ _ _ => some "demo.mp3") = some "demo.mp3" ∧
    renderDownloadTrack "T" "A" "medium"
        (fun _ _ _ => none) (fun _ _ _ => none) (fun _ _ _ => none)
        (fun _ _ _ => some "demo.mp3") ≠ none := by
  exact ⟨rfl, by simp [renderDownloadTrack, download_track]⟩

/-- C7 (amended): for playlists `totalTracks` equals the length of the track
list computed after skipping non-track items; for albums `totalTracks` is
copied from the catalog's `total_tracks` field (while the track list has one
entry per raw item), so the two can differ. -/
theorem c7_total_tracks (raw : RawPlaylist) (rawA : RawAlbum) :
    (get_playlist_metadata raw).total_tracks =
      (get_playlist_metadata raw).tracks.length ∧
    (get_album_metadata rawA).total_tracks = rawA.total_tracks.getD 0 ∧
    (get_album_metadata rawA).tracks.length = rawA.items.length := by
  refine ⟨rfl, rfl, ?_⟩
  simp [get_album_metadata]

/-- Counterexample for C7: a raw album reporting `total_tracks = 2` with an
empty `tracks.items` list yields album metadata violating
`totalTracks == length(trackList)`. -/
theorem c7_album_counterexample :
    (get_album_metadata ⟨none, none, [], some 2, none, []⟩).total_tracks = 2 ∧
    (get_album_metadata ⟨none, none, [], some 2, none, []⟩).tracks.length = 0 ∧
    (get_album_metadata ⟨none, none, [], some 2, none, []⟩).total_tracks ≠
      (get_album_metadata ⟨none, none, [], some 2, none, []⟩).tracks.length := by
  exact ⟨rfl, rfl, by decide⟩

/-- C8 (amended): the local file is removed iff a file was downloaded and the
outbound send succeeded; when the send raises, the cleanup is skipped. -/
theorem c8_cleanup_iff (dl : Option String) (sendOk : Bool) (meta : TrackMeta)
    (f : String) :
    Event.fileRemove f ∈ download_single_track dl sendOk meta ↔
      dl = some f ∧ sendOk = true := by
  cases dl <;> cases sendOk <;> simp [download_single_track, eq_comm]

/-- Counterexample for C8: the track was downloaded to "song.mp3" but the
outbound send raises; no `os.remove` happens, contradicting the claimed
unconditional cleanup. -/
theorem c8_no_cleanup_on_send_failure :
    Event.fileRemove "song.mp3" ∉
      download_single_track (some "song.mp3") false ⟨"X", "Y"⟩ := by
  decide

/-- Helper for C9: reading a list at a list of in-range indices produces one
element per index. -/
theorem length_filterMap_getElem (l : List α) :
    ∀ idxs : List Nat, (∀ i ∈ idxs, i < l.length) →
      (idxs.filterMap (fun i => l[i]?)).length = idxs.length := by
  intro idxs
  induction idxs with
  | nil => intro _; rfl
  | cons i rest ih =>
    intro h
    have hi : i < l.length := h i (by simp)
    rw [List.filterMap_cons, List.getElem?_eq_getElem hi]
    simp only [List.length_cons]
    rw [ih (fun j hj => h j (List.mem_cons_of_mem _ hj))]

/-- Helper for C9: reading every position of a list in order gives back the
list. -/
theorem filterMap_getElem_range (l : List α) :
    (List.range l.length).filterMap (fun i => l[i]?) = l := by
  induction l with
  | nil => rfl
  | cons a l ih =>
    rw [List.length_cons, List.range_succ_eq_map, List.filterMap_cons]
    simp only [List.getElem?_cons_zero]
    rw [List.filterMap_map]
    have hc : ((fun i => (a :: l)[i]?) ∘ Nat.succ) = fun i => l[i]? := by
      funext i; simp
    rw [hc, ih]

/-- C9: for every count `n` and every demo-catalog list, any possible result
of `get_random_tracks` has exactly `min n L` entries, all drawn from the
list at pairwise-distinct positions (so pairwise distinct whenever the list
has no duplicates), and when `n` reaches the list length the result is a
permutation of the whole list; the seed list itself has no duplicates. -/
theorem c9_sample_clamp :
    (∀ (l : List DemoTrack) (n : Nat) (r : List DemoTrack),
      get_random_tracks l n r →
        r.length = min n l.length ∧
        (∀ x ∈ r, x ∈ l) ∧
        (l.Nodup → r.Nodup) ∧
        (l.length ≤ n → r.Perm l)) ∧
    popular_tracks.Nodup := by
  constructor
  · intro l n r hr
    obtain ⟨idxs, hnd, hlen, hlt, hre⟩ := hr
    have hclamp : clampCount l n = min n l.length := by
      simp only [clampCount, Nat.min_def]
      split <;> split <;> omega
    refine ⟨?_, ?_, ?_, ?_⟩
    · rw [hre, length_filterMap_getElem l idxs hlt, hlen, hclamp]
    · intro x hx
      rw [hre] at hx
      obtain ⟨i, _, hxi⟩ := List.mem_filterMap.mp hx
      exact List.getElem?_mem hxi
    · intro hl
      rw [hre]
      exact List.Nodup.filterMap
        (fun i j x hxi hxj => by
          have hxi' : l[i]? = some x := hxi
          have hxj' : l[j]? = some x := hxj
          have hilt : i < l.length := by
            by_contra hc
            rw [List.getElem?_eq_none (by omega)] at hxi'
            cases hxi'
          exact List.getElem?_inj hilt hl (hxi'.trans hxj'.symm)) hnd
    · intro hn
      have hk : idxs.length = l.length := by
        rw [hlen, hclamp]; omega
      have hperm : idxs.Perm (List.range l.length) := by
        refine List.Subperm.perm_of_length_le ?_ ?_
        · exact hnd.subperm (fun i hi => List.mem_range.mpr (hlt i hi))
        · rw [hk, List.length_range]
      have h1 : (idxs.filterMap (fun i => l[i]?)).Perm
          ((List.range l.length).filterMap (fun i => l[i]?)) :=
        hperm.filterMap _
      rw [filterMap_getElem_range] at h1
      rw [hre]
      exact h1
  · decide

/-- Witness for C9: on a two-entry catalog with requested count 5, the draw
reading positions 1 then 0 is a valid sample and satisfies the conclusion. -/
theorem c9_sample_clamp_witness :
    get_random_tracks
        [(⟨"n1", "a1", "u1"⟩ : DemoTrack), ⟨"n2", "a2", "u2"⟩] 5
        [⟨"n2", "a2", "u2"⟩, ⟨"n1", "a1", "u1"⟩] ∧
    (([(⟨"n2", "a2", "u2"⟩ : DemoTrack), ⟨"n1", "a1", "u1"⟩] : List DemoTrack).length =
        min 5 ([(⟨"n1", "a1", "u1"⟩ : DemoTrack), ⟨"n2", "a2", "u2"⟩] : List DemoTrack).length ∧
      (∀ x ∈ ([(⟨"n2", "a2", "u2"⟩ : DemoTrack), ⟨"n1", "a1", "u1"⟩] : List DemoTrack),
        x ∈ ([(⟨"n1", "a1", "u1"⟩ : DemoTrack), ⟨"n2", "a2", "u2"⟩] : List DemoTrack)) ∧
      (([(⟨"n1", "a1", "u1"⟩ : DemoTrack), ⟨"n2", "a2", "u2"⟩] : List DemoTrack).Nodup →
        ([(⟨"n2", "a2", "u2"⟩ : DemoTrack), ⟨"n1", "a1", "u1"⟩] : List DemoTrack).Nodup) ∧
      (([(⟨"n1", "a1", "u1"⟩ : DemoTrack), ⟨"n2", "a2", "u2"⟩] : List DemoTrack).length ≤ 5 →
        ([(⟨"n2", "a2", "u2"⟩ : DemoTrack), ⟨"n1", "a1", "u1"⟩] : List DemoTrack).Perm
          [⟨"n1", "a1", "u1"⟩, ⟨"n2", "a2", "u2"⟩])) :=
  have hs : get_random_tracks
      [(⟨"n1", "a1", "u1"⟩ : DemoTrack), ⟨"n2", "a2", "u2"⟩] 5
      [⟨"n2", "a2", "u2"⟩, ⟨"n1", "a1", "u1"⟩] :=
    ⟨[1, 0], by decide, rfl, by decide, rfl⟩
  ⟨hs, c9_sample_clamp.1 _ 5 _ hs⟩

/-- Helper for C6: the head of a stable descending insertion. -/
theorem head?_insertDesc (x : SpotImage) (s : List SpotImage) :
    (insertDesc x s).head? =
      match s.head? with
      | none => some x
      | some y => if area y > area x then some y else some x := by
  cases s with
  | nil => rfl
  | cons y ys =>
    by_cases h : area y > area x <;> simp [insertDesc, h]

/-- Helper for C6: the head of the stable descending sort is the first
maximal-area element. -/
theorem bestEntry_eq_firstMaxImg : ∀ l : List SpotImage, bestEntry l = firstMaxImg l := by
  intro l
  induction l with
  | nil => rfl
  | cons x xs ih =>
    show (insertDesc x (sortDesc xs)).head? = _
    rw [head?_insertDesc]
    have hx : (sortDesc xs).head? = firstMaxImg xs := ih
    rw [hx]
    cases hfm : firstMaxImg xs <;> simp [firstMaxImg, hfm]

/-- Helper for C6: a nonempty list has a maximal element in `firstMaxImg`
sense. -/
theorem firstMaxImg_isSome : ∀ (l : List SpotImage), l ≠ [] → (firstMaxImg l).isSome := by
  intro l hl
  cases l with
  | nil => exact absurd rfl hl
  | cons x xs =>
    simp only [firstMaxImg]
    cases firstMaxImg xs with
    | none => rfl
    | some y => by_cases h : area y > area x <;> simp [h]

/-- Helper for C6: `firstMaxImg` returns the first element attaining the
maximal area. -/
theorem firstMaxImg_spec :
    ∀ (l : List SpotImage), l ≠ [] →
      ∃ i, ∃ hi : i < l.length,
        firstMaxImg l = some (l.get ⟨i, hi⟩) ∧
        (∀ j (hj : j < l.length), area (l.get ⟨j, hj⟩) ≤ area (l.get ⟨i, hi⟩)) ∧
        (∀ j (hj : j < l.length), j < i → area (l.get ⟨j, hj⟩) < area (l.get ⟨i, hi⟩)) := by
  intro l
  induction l with
  | nil => intro h; exact absurd rfl h
  | cons x xs ih =>
    intro _
    cases hfm : firstMaxImg xs with
    | none =>
      have hxs : xs = [] := by
        cases xs with
        | nil => rfl
        | cons y ys =>
          have := firstMaxImg_isSome (y :: ys) (by simp)
          rw [hfm] at this
          cases this
      subst hxs
      refine ⟨0, by simp, by simp [firstMaxImg], ?_, ?_⟩
      · intro j hj
        have hj0 : j = 0 := by simp at hj; omega
        subst hj0
        exact le_refl _
      · intro j hj hj0
        omega
    | some y =>
      have hxs : xs ≠ [] := by
        intro hc; subst hc; cases hfm
      obtain ⟨i, hi, hy, hle, hlt⟩ := ih hxs
      have hyy : y = xs.get ⟨i, hi⟩ := by
        rw [hfm] at hy; exact Option.some_injective _ hy
      by_cases hcmp : area y > area x
      · refine ⟨i + 1, by simpa using Nat.succ_lt_succ hi, ?_, ?_, ?_⟩
        · simp only [firstMaxImg, hfm, if_pos hcmp]
          rw [hyy]
          rfl
        · intro j hj
          cases j with
          | zero =>
            show area x ≤ area (xs.get ⟨i, hi⟩)
            rw [hyy] at hcmp
            exact le_of_lt hcmp
          | succ j =>
            have hj' : j < xs.length := by simpa using hj
            show area (xs.get ⟨j, hj'⟩) ≤ area (xs.get ⟨i, hi⟩)
            exact hle j hj'
        · intro j hj hji
          cases j with
          | zero =>
            show area x < area (xs.get ⟨i, hi⟩)
            rw [hyy] at hcmp
            exact hcmp
          | succ j =>
            have hj' : j < xs.length := by simpa using hj
            have hji' : j < i := by omega
            show area (xs.get ⟨j, hj'⟩) < area (xs.get ⟨i, hi⟩)
            exact hlt j hj' hji'
      · refine ⟨0, by simp, ?_, ?_, ?_⟩
        · simp [firstMaxImg, hfm, hcmp]
        · intro j hj
          cases j with
          | zero => exact le_refl _
          | succ j =>
            have hj' : j < xs.length := by simpa using hj
            have h1 : area (xs.get ⟨j, hj'⟩) ≤ area y := by
              rw [hyy]; exact hle j hj'
            have h2 : area y ≤ area x := Nat.le_of_not_lt hcmp
            show area (xs.get ⟨j, hj'⟩) ≤ area x
            exact le_trans h1 h2
        · intro j hj hj0
          omega

/-- C6: the artwork selection returns the element of maximal
`width * height`, the first-seen one on area ties, and its url; on the empty
list it returns `None`; on the spec's example `[(10,10),(20,5),(5,40)]` it
picks the `(5,40)` entry (area 200). -/
theorem c6_best_image :
    (∀ (l : List SpotImage), l ≠ [] →
      ∃ i, ∃ hi : i < l.length,
        bestEntry l = some (l.get ⟨i, hi⟩) ∧
        get_best_image l = some (l.get ⟨i, hi⟩).url ∧
        (∀ j (hj : j < l.length), area (l.get ⟨j, hj⟩) ≤ area (l.get ⟨i, hi⟩)) ∧
        (∀ j (hj : j < l.length), j < i → area (l.get ⟨j, hj⟩) < area (l.get ⟨i, hi⟩))) ∧
    get_best_image [] = none ∧
    bestEntry [⟨10, 10, "a"⟩, ⟨20, 5, "b"⟩, ⟨5, 40, "c"⟩] = some ⟨5, 40, "c"⟩ := by
  refine ⟨?_, rfl, by decide⟩
  intro l hl
  obtain ⟨i, hi, hy, hle, hlt⟩ := firstMaxImg_spec l hl
  have hb : bestEntry l = some (l.get ⟨i, hi⟩) := by
    rw [bestEntry_eq_firstMaxImg]; exact hy
  refine ⟨i, hi, hb, ?_, hle, hlt⟩
  cases l with
  | nil => exact absurd rfl hl
  | cons a as =>
    show ((bestEntry (a :: as)).map SpotImage.url) = _
    rw [hb]
    rfl

/-- Witness for C6: the spec's own example list is nonempty and the selection
property holds there. -/
theorem c6_best_image_witness :
    ([(⟨10, 10, "a"⟩ : SpotImage), ⟨20, 5, "b"⟩, ⟨5, 40, "c"⟩] ≠ []) ∧
    (∃ i, ∃ hi : i < ([(⟨10, 10, "a"⟩ : SpotImage), ⟨20, 5, "b"⟩, ⟨5, 40, "c"⟩] : List SpotImage).length,
      bestEntry [⟨10, 10, "a"⟩, ⟨20, 5, "b"⟩, ⟨5, 40, "c"⟩] =
        some (([(⟨10, 10, "a"⟩ : SpotImage), ⟨20, 5, "b"⟩, ⟨5, 40, "c"⟩] : List SpotImage).get ⟨i, hi⟩) ∧
      get_best_image [⟨10, 10, "a"⟩, ⟨20, 5, "b"⟩, ⟨5, 40, "c"⟩] =
        some (([(⟨10, 10, "a"⟩ : SpotImage), ⟨20, 5, "b"⟩, ⟨5, 40, "c"⟩] : List SpotImage).get ⟨i, hi⟩).url ∧
      (∀ j (hj : j < ([(⟨10, 10, "a"⟩ : SpotImage), ⟨20, 5, "b"⟩, ⟨5, 40, "c"⟩] : List SpotImage).length),
        area (([(⟨10, 10, "a"⟩ : SpotImage), ⟨20, 5, "b"⟩, ⟨5, 40, "c"⟩] : List SpotImage).get ⟨j, hj⟩) ≤
          area (([(⟨10, 10, "a"⟩ : SpotImage), ⟨20, 5, "b"⟩, ⟨5, 40, "c"⟩] : List SpotImage).get ⟨i, hi⟩)) ∧
      (∀ j (hj : j < ([(⟨10, 10, "a"⟩ : SpotImage), ⟨20, 5, "b"⟩, ⟨5, 40, "c"⟩] : List SpotImage).length),
        j < i →
        area (([(⟨10, 10, "a"⟩ : SpotImage), ⟨20, 5, "b"⟩, ⟨5, 40, "c"⟩] : List SpotImage).get ⟨j, hj⟩) <
          area (([(⟨10, 10, "a"⟩ : SpotImage), ⟨20, 5, "b"⟩, ⟨5, 40, "c"⟩] : List SpotImage).get ⟨i, hi⟩))) :=
  ⟨by decide, c6_best_image.1 _ (by decide)⟩

/-- C10 (amended): every search query the downloader sends is built from the
track name and the first artist only (the substring before the first comma,
trimmed): the query list depends on the `artists` field only through
`firstArtist`.  A remaining artist's name can nevertheless occur inside a
query when it occurs in the title (see the counterexample). -/
theorem c10_first_artist_only (m1 m2 : TrackMeta)
    (hn : m1.name = m2.name)
    (ha : firstArtist m1.artists = firstArtist m2.artists) :
    queriesUsed m1 = queriesUsed m2 ∧
    queriesUsed m1 = allQueries m1.name (firstArtist m1.artists) := by
  constructor
  · unfold queriesUsed
    rw [hn, ha]
  · rfl

/-- Witness for C10: two metadata values sharing title and first artist but
differing in the remaining artists produce identical query lists. -/
theorem c10_first_artist_only_witness :
    (⟨"T", "Alice, Bob"⟩ : TrackMeta).name = (⟨"T", "Alice, Carol"⟩ : TrackMeta).name ∧
    firstArtist (⟨"T", "Alice, Bob"⟩ : TrackMeta).artists =
      firstArtist (⟨"T", "Alice, Carol"⟩ : TrackMeta).artists ∧
    (queriesUsed ⟨"T", "Alice, Bob"⟩ = queriesUsed ⟨"T", "Alice, Carol"⟩ ∧
      queriesUsed ⟨"T", "Alice, Bob"⟩ =
        allQueries (⟨"T", "Alice, Bob"⟩ : TrackMeta).name
          (firstArtist (⟨"T", "Alice, Bob"⟩ : TrackMeta).artists)) :=
  ⟨rfl, by decide, c10_first_artist_only _ _ rfl (by decide)⟩

/-- Counterexample for C10: for the track "Bob" by "Alice, Bob", the
remaining artist name "Bob" appears verbatim inside the very first query the
downloader sends, refuting "the remaining artist names never appear in any
query". -/
theorem c10_remaining_artist_in_query :
    "Bob" ∈ remainingArtists "Alice, Bob" ∧
    ∃ q ∈ queriesUsed ⟨"Bob", "Alice, Bob"⟩, ("Bob".data).IsInfix q.data := by
  constructor
  · decide
  · exact ⟨"\"Bob\" \"Alice\" official audio", by decide, by decide⟩

/-- Helper for C5: stripping bad characters is the identity on strings with
no bad character. -/
theorem stripBad_eq_self {s : List Char} (h : ∀ c ∈ s, isBadChar c = false) :
    stripBad s = s := by
  unfold stripBad
  rw [List.filter_eq_self]
  intro c hc
  simp [h c hc]

/-- Helper for C5: the head of a collapsed run: a space head collapses to a
space, a non-space head is kept. -/
theorem collapseWs_head :
    ∀ (cs : List Char) (c : Char),
      ∃ t, collapseWs (c :: cs) = (if isPySpace c then ' ' else c) :: t := by
  intro cs
  induction cs with
  | nil =>
    intro c
    by_cases h : isPySpace c <;> exact ⟨[], by simp [collapseWs, h]⟩
  | cons d ds ih =>
    intro c
    by_cases hc : isPySpace c
    · by_cases hd : isPySpace d
      · obtain ⟨t, ht⟩ := ih d
        refine ⟨t, ?_⟩
        rw [if_pos hc]
        rw [show collapseWs (c :: d :: ds) = collapseWs (d :: ds) by
          simp [collapseWs, hc, hd]]
        rw [ht, if_pos hd]
      · exact ⟨collapseWs (d :: ds), by simp [collapseWs, hc, hd]⟩
    · exact ⟨collapseWs (d :: ds), by simp [collapseWs, hc]⟩

/-- Helper for C5: the output of the whitespace collapse is in collapsed
form. -/
theorem collapsedOk_collapseWs : ∀ s : List Char, collapsedOk (collapseWs s) = true := by
  intro s
  induction s using collapseWs.induct with
  | case1 => rfl
  | case2 c h => simp [collapseWs, h, collapsedOk]
  | case3 c h => simp [collapseWs, h, collapsedOk]
  | case4 c d cs hc hd ih =>
    simpa [collapseWs, hc, hd] using ih
  | case5 c d cs hc hd ih =>
    obtain ⟨t, ht⟩ := collapseWs_head cs d
    rw [if_neg hd] at ht
    rw [show collapseWs (c :: d :: cs) = ' ' :: collapseWs (d :: cs) by
      simp [collapseWs, hc, hd]]
    rw [ht]
    simp only [collapsedOk, Bool.and_eq_true]
    have hdf : isPySpace d = false := by
      cases hdd : isPySpace d
      · rfl
      · exact absurd hdd hd
    refine ⟨by rw [hdf]; decide, ?_⟩
    rw [← ht]
    exact ih
  | case6 c d cs hc ih =>
    obtain ⟨t, ht⟩ := collapseWs_head cs d
    rw [show collapseWs (c :: d :: cs) = c :: collapseWs (d :: cs) by
      simp [collapseWs, hc]]
    rw [ht]
    simp only [collapsedOk, Bool.and_eq_true]
    refine ⟨by simp [hc], ?_⟩
    rw [← ht]
    exact ih

/-- Helper for C5: collapsedness is preserved by dropping a head. -/
theorem collapsedOk_tail {a : Char} {s : List Char}
    (h : collapsedOk (a :: s) = true) : collapsedOk s = true := by
  cases s with
  | nil => rfl
  | cons b t =>
    simp only [collapsedOk, Bool.and_eq_true] at h
    exact h.2

/-- Helper for C5: the whitespace collapse is the identity on collapsed
strings. -/
theorem collapseWs_eq_self : ∀ s : List Char, collapsedOk s = true → collapseWs s = s := by
  intro s
  induction s using collapseWs.induct with
  | case1 => intro _; rfl
  | case2 c h =>
    intro hok
    simp only [collapsedOk, h, Bool.not_true, Bool.false_or,
      decide_eq_true_eq] at hok
    simp [collapseWs, h, hok]
  | case3 c h => intro _; simp [collapseWs, h]
  | case4 c d cs hc hd ih =>
    intro hok
    exfalso
    simp [collapsedOk, hc, hd] at hok
  | case5 c d cs hc hd ih =>
    intro hok
    simp only [collapsedOk, hc, Bool.not_true, Bool.false_or, Bool.and_eq_true,
      decide_eq_true_eq] at hok
    rw [show collapseWs (c :: d :: cs) = ' ' :: collapseWs (d :: cs) by
      simp [collapseWs, hc, hd]]
    rw [ih hok.2, hok.1.1]
  | case6 c d cs hc ih =>
    intro hok
    have hok2 : collapsedOk (d :: cs) = true := collapsedOk_tail hok
    rw [show collapseWs (c :: d :: cs) = c :: collapseWs (d :: cs) by
      simp [collapseWs, hc]]
    rw [ih hok2]

/-- Helper for C5: characters produced by the collapse come from the input or
are the space substituted for a run. -/
theorem mem_collapseWs : ∀ (s : List Char) (c : Char), c ∈ collapseWs s → c = ' ' ∨ c ∈ s := by
  intro s
  induction s using collapseWs.induct with
  | case1 => intro c hc; simp [collapseWs] at hc
  | case2 a h =>
    intro c hc
    simp [collapseWs, h] at hc
    exact Or.inl hc
  | case3 a h =>
    intro c hc
    simp [collapseWs, h] at hc
    exact Or.inr (by simp [hc])
  | case4 a d cs ha hd ih =>
    intro c hc
    rw [show collapseWs (a :: d :: cs) = collapseWs (d :: cs) by
      simp [collapseWs, ha, hd]] at hc
    rcases ih c hc with h | h
    · exact Or.inl h
    · exact Or.inr (List.mem_cons_of_mem _ h)
  | case5 a d cs ha hd ih =>
    intro c hc
    rw [show collapseWs (a :: d :: cs) = ' ' :: collapseWs (d :: cs) by
      simp [collapseWs, ha, hd]] at hc
    rcases List.mem_cons.mp hc with rfl | h
    · exact Or.inl rfl
    · rcases ih c h with h2 | h2
      · exact Or.inl h2
      · exact Or.inr (List.mem_cons_of_mem _ h2)
  | case6 a d cs ha ih =>
    intro c hc
    rw [show collapseWs (a :: d :: cs) = a :: collapseWs (d :: cs) by
      simp [collapseWs, ha]] at hc
    rcases List.mem_cons.mp hc with rfl | h
    · exact Or.inr (by simp)
    · rcases ih c h with h2 | h2
      · exact Or.inl h2
      · exact Or.inr (List.mem_cons_of_mem _ h2)

/-- Helper for C5: collapsedness is preserved by `dropWhile`. -/
theorem collapsedOk_dropWhile (p : Char → Bool) :
    ∀ s : List Char, collapsedOk s = true → collapsedOk (s.dropWhile p) = true := by
  intro s
  induction s with
  | nil => intro h; exact h
  | cons a t ih =>
    intro h
    cases hpa : p a with
    | true =>
      rw [List.dropWhile_cons, if_pos hpa]
      exact ih (collapsedOk_tail h)
    | false =>
      rw [List.dropWhile_cons, if_neg (by simp [hpa])]
      exact h

/-- Helper for C5: collapsedness is preserved by `take`. -/
theorem collapsedOk_take :
    ∀ s : List Char, collapsedOk s = true → ∀ n, collapsedOk (s.take n) = true := by
  intro s
  induction s using collapsedOk.induct with
  | case1 => intro _ n; simp [collapsedOk]
  | case2 c =>
    intro hok n
    cases n with
    | zero => rfl
    | succ m => simpa using hok
  | case3 c d cs ih =>
    intro hok n
    simp only [collapsedOk, Bool.and_eq_true] at hok
    obtain ⟨h1, h2⟩ := hok
    cases n with
    | zero => rfl
    | succ m =>
      cases m with
      | zero =>
        show collapsedOk [c] = true
        simp only [collapsedOk]
        cases hsp : isPySpace c with
        | false => simp
        | true =>
          rw [hsp] at h1
          simp only [Bool.not_true, Bool.false_or, Bool.and_eq_true,
            decide_eq_true_eq] at h1
          simp [h1.1]
      | succ k =>
        show collapsedOk (c :: d :: cs.take k) = true
        simp only [collapsedOk, Bool.and_eq_true]
        refine ⟨h1, ?_⟩
        have := ih h2 (k + 1)
        simpa using this

/-- Helper for C5: in a collapsed string every whitespace character is the
literal space. -/
theorem collapsedOk_space :
    ∀ s : List Char, collapsedOk s = true →
      ∀ c ∈ s, isPySpace c = true → c = ' ' := by
  intro s
  induction s using collapsedOk.induct with
  | case1 => intro _ c hc; simp at hc
  | case2 a =>
    intro hok c hc hsp
    have hca : c = a := by simpa using hc
    subst hca
    simp only [collapsedOk, hsp, Bool.not_true, Bool.false_or,
      decide_eq_true_eq] at hok
    exact hok
  | case3 a d cs ih =>
    intro hok c hc hsp
    simp only [collapsedOk, Bool.and_eq_true] at hok
    obtain ⟨h1, h2⟩ := hok
    rcases List.mem_cons.mp hc with rfl | hmem
    · rw [hsp] at h1
      simp only [Bool.not_true, Bool.false_or, Bool.and_eq_true,
        decide_eq_true_eq] at h1
      exact h1.1
    · exact ih h2 c hmem hsp

/-- Helper for C5: the head surviving a `dropWhile` fails the predicate. -/
theorem head?_dropWhile_false (p : Char → Bool) :
    ∀ (s : List Char) (c : Char), (s.dropWhile p).head? = some c → p c = false := by
  intro s
  induction s with
  | nil => intro c h; simp at h
  | cons a t ih =>
    intro c h
    cases hpa : p a with
    | true =>
      rw [List.dropWhile_cons, if_pos hpa] at h
      exact ih c h
    | false =>
      rw [List.dropWhile_cons, if_neg (by simp [hpa])] at h
      simp only [List.head?_cons, Option.some.injEq] at h
      rw [← h]
      exact hpa

/-- Helper for C5: prefixes agree on the head. -/
theorem isPrefix_head? {l1 l2 : List Char} (h : l1 <+: l2) {c : Char}
    (hc : l1.head? = some c) : l2.head? = some c := by
  obtain ⟨t, rfl⟩ := h
  cases l1 with
  | nil => simp at hc
  | cons a l =>
    simp only [List.head?_cons, Option.some.injEq] at hc
    simp [hc]

/-- Helper for C5: stripping is a prefix of the left-trimmed string. -/
theorem pyStrip_prefixOf (s : List Char) :
    pyStrip s <+: s.dropWhile isPySpace := by
  unfold pyStrip
  have h1 : ((s.dropWhile isPySpace).reverse.dropWhile isPySpace) <:+
      (s.dropWhile isPySpace).reverse := List.dropWhile_suffix _
  have h2 := List.reverse_prefix.mpr h1
  rwa [List.reverse_reverse] at h2

/-- Helper for C5: characters of the stripped string come from the input. -/
theorem mem_pyStrip {s : List Char} {c : Char} (h : c ∈ pyStrip s) : c ∈ s := by
  have h1 := (pyStrip_prefixOf s).subset h
  exact (List.dropWhile_sublist isPySpace).subset h1

/-- Helper for C5: the stripped string does not start with whitespace. -/
theorem head?_pyStrip {s : List Char} {c : Char}
    (h : (pyStrip s).head? = some c) : isPySpace c = false :=
  head?_dropWhile_false isPySpace s c (isPrefix_head? (pyStrip_prefixOf s) h)

/-- Helper for C5: the stripped string does not end with whitespace. -/
theorem getLast?_pyStrip {s : List Char} {c : Char}
    (h : (pyStrip s).getLast? = some c) : isPySpace c = false := by
  unfold pyStrip at h
  rw [List.getLast?_reverse] at h
  exact head?_dropWhile_false isPySpace _ c h

/-- Helper for C5: collapsedness is preserved by stripping. -/
theorem collapsedOk_pyStrip {s : List Char} (h : collapsedOk s = true) :
    collapsedOk (pyStrip s) = true := by
  have h1 : collapsedOk (s.dropWhile isPySpace) = true := collapsedOk_dropWhile _ s h
  have h2 := List.prefix_iff_eq_take.mp (pyStrip_prefixOf s)
  rw [h2]
  exact collapsedOk_take _ h1 _

/-- Helper for C5: stripping is the identity when neither end is whitespace. -/
theorem pyStrip_eq_self {s : List Char}
    (h1 : ∀ c, s.head? = some c → isPySpace c = false)
    (h2 : ∀ c, s.getLast? = some c → isPySpace c = false) :
    pyStrip s = s := by
  have e1 : s.dropWhile isPySpace = s := by
    cases s with
    | nil => rfl
    | cons a t =>
      have := h1 a rfl
      rw [List.dropWhile_cons, if_neg (by simp [this])]
  unfold pyStrip
  rw [e1]
  have e2 : s.reverse.dropWhile isPySpace = s.reverse := by
    cases hrev : s.reverse with
    | nil => rfl
    | cons a t =>
      have ha : s.getLast? = some a := by
        rw [← List.head?_reverse, hrev]
        rfl
      have := h2 a ha
      rw [List.dropWhile_cons, if_neg (by simp [this])]
  rw [e2, List.reverse_reverse]

/-- Helper for C5: the last element of a list is a member. -/
theorem mem_of_getLast?_eq {l : List Char} {c : Char}
    (h : l.getLast? = some c) : c ∈ l := by
  obtain ⟨hne, h2⟩ := List.mem_getLast?_eq_getLast (show c ∈ l.getLast? from h)
  rw [h2]
  exact List.getLast_mem hne

/-- Helper for C5: prefixes taken with `take` agree on the head. -/
theorem take_head? {l : List Char} {n : Nat} {c : Char}
    (h : (l.take n).head? = some c) : l.head? = some c :=
  isPrefix_head? (List.take_prefix n l) h

/-- Helper for C5: `clean_filename` is the identity on strings that are
already in fully sanitized form. -/
theorem clean_filename_fixed (z : List Char)
    (hbad : ∀ c ∈ z, isBadChar c = false)
    (hok : collapsedOk z = true)
    (hhead : ∀ c, z.head? = some c → isPySpace c = false)
    (hlast : ∀ c, z.getLast? = some c → isPySpace c = false)
    (hne : z ≠ [])
    (hlen : z.length ≤ 100) :
    clean_filename z = z := by
  have e1 : stripBad z = z := stripBad_eq_self hbad
  have e2 : collapseWs z = z := collapseWs_eq_self z hok
  have e3 : pyStrip z = z := pyStrip_eq_self hhead hlast
  unfold clean_filename
  simp only []
  rw [e1, e2, e3, if_neg (by omega : ¬ 100 < z.length), if_neg hne]

/-- C5 (amended): `clean_filename` maps "A/B:C" to "ABC" and "" to
"untitled", and it is idempotent on every input whose sanitized form does
not end in a space; idempotence fails in general because the 100-character
truncation can leave a trailing space that a second pass then trims (see the
counterexample). -/
theorem c5_sanitize :
    (∀ x : List Char, (clean_filename x).getLast? ≠ some ' ' →
      clean_filename (clean_filename x) = clean_filename x) ∧
    clean_filename "A/B:C".data = "ABC".data ∧
    clean_filename "".data = "untitled".data := by
  refine ⟨?_, by decide, by decide⟩
  intro x hlast
  have hzdef : clean_filename x =
      (if (if 100 < (pyStrip (collapseWs (stripBad x))).length
            then (pyStrip (collapseWs (stripBad x))).take 100
            else pyStrip (collapseWs (stripBad x))) = []
       then "untitled".data
       else (if 100 < (pyStrip (collapseWs (stripBad x))).length
             then (pyStrip (collapseWs (stripBad x))).take 100
             else pyStrip (collapseWs (stripBad x)))) := rfl
  have hYbad : ∀ c ∈ pyStrip (collapseWs (stripBad x)), isBadChar c = false := by
    intro c hc
    rcases mem_collapseWs _ c (mem_pyStrip hc) with rfl | hmem
    · decide
    · simpa using (List.mem_filter.mp hmem).2
  have hYok : collapsedOk (pyStrip (collapseWs (stripBad x))) = true :=
    collapsedOk_pyStrip (collapsedOk_collapseWs _)
  by_cases hf : (if 100 < (pyStrip (collapseWs (stripBad x))).length
      then (pyStrip (collapseWs (stripBad x))).take 100
      else pyStrip (collapseWs (stripBad x))) = []
  · rw [hzdef, if_pos hf]
    decide
  · rw [hzdef, if_neg hf]
    rw [hzdef, if_neg hf] at hlast
    by_cases htr : 100 < (pyStrip (collapseWs (stripBad x))).length
    · rw [if_pos htr]
      rw [if_pos htr] at hlast hf
      refine clean_filename_fixed _ ?_ ?_ ?_ ?_ hf ?_
      · intro c hc
        exact hYbad c (List.mem_of_mem_take hc)
      · exact collapsedOk_take _ hYok 100
      · intro c hc
        exact head?_pyStrip (take_head? hc)
      · intro c hc
        cases hsp : isPySpace c with
        | false => rfl
        | true =>
          exfalso
          have hceq : c = ' ' :=
            collapsedOk_space _ (collapsedOk_take _ hYok 100) c
              (mem_of_getLast?_eq hc) hsp
          rw [hceq] at hc
          exact hlast hc
      · simp [List.length_take]
    · rw [if_neg htr]
      rw [if_neg htr] at hf
      refine clean_filename_fixed _ hYbad hYok ?_ ?_ hf ?_
      · intro c hc
        exact head?_pyStrip hc
      · intro c hc
        exact getLast?_pyStrip hc
      · omega

/-- Witness for C5: the sanitized form of "A/B:C" does not end in a space,
and idempotence holds there. -/
theorem c5_sanitize_witness :
    (clean_filename "A/B:C".data).getLast? ≠ some ' ' ∧
    clean_filename (clean_filename "A/B:C".data) = clean_filename "A/B:C".data :=
  ⟨by decide, c5_sanitize.1 _ (by decide)⟩

/-- Counterexample for C5: a 99-a's-space-b input sanitizes to 99 a's plus a
trailing space (the truncation cuts exactly after the space), and a second
application trims that space, so sanitize is not idempotent. -/
theorem c5_not_idempotent :
    clean_filename (List.replicate 99 'a' ++ [' ', 'b']) =
      List.replicate 99 'a' ++ [' '] ∧
    clean_filename (clean_filename (List.replicate 99 'a' ++ [' ', 'b'])) =
      List.replicate 99 'a' ∧
    clean_filename (clean_filename (List.replicate 99 'a' ++ [' ', 'b'])) ≠
      clean_filename (List.replicate 99 'a' ++ [' ', 'b']) := by
  refine ⟨by decide, by decide, by decide⟩

/-- Helper for C4: a character mismatch inside the compared region makes the
literal fail at this position, whatever follows. -/
theorem stripPref_none_of_mismatches :
    ∀ (pat t : List Char), mismatches pat t = true →
      ∀ r, stripPref pat (t ++ r) = none := by
  intro pat
  induction pat with
  | nil => intro t h r; simp [mismatches] at h
  | cons p ps ih =>
    intro t h r
    cases t with
    | nil => simp [mismatches] at h
    | cons c cs =>
      by_cases hpc : p = c
      · simp only [mismatches, if_pos hpc] at h
        show stripPref (p :: ps) ((c :: cs) ++ r) = none
        rw [List.cons_append]
        simp only [stripPref, if_pos hpc]
        exact ih cs h r
      · show stripPref (p :: ps) ((c :: cs) ++ r) = none
        rw [List.cons_append]
        simp only [stripPref, if_neg hpc]

/-- Helper for C4: when the literal fails at the head, the search continues
one position to the right. -/
theorem reSearch_cons_none {pat : List Char} {c : Char} {cs : List Char}
    (h : stripPref pat (c :: cs) = none) :
    reSearch pat (c :: cs) = reSearch pat cs := by
  simp only [reSearch]
  rw [h]

/-- Helper for C4: when the literal matches at the head and at least one
alphanumeric character follows, the capture is the maximal alphanumeric run. -/
theorem reSearch_cons_tail {pat : List Char} {c : Char} {cs t : List Char}
    (h : stripPref pat (c :: cs) = some t) (hne : t.takeWhile isAlnum ≠ []) :
    reSearch pat (c :: cs) = some (t.takeWhile isAlnum) := by
  simp only [reSearch]
  rw [h]
  show (if List.takeWhile isAlnum t = [] then reSearch pat cs
        else some (List.takeWhile isAlnum t)) = some (List.takeWhile isAlnum t)
  rw [if_neg hne]

/-- Helper for C4: the search skips a whole region in which every position
has a mismatch. -/
theorem reSearch_append_ko (pat : List Char) :
    ∀ (s : List Char), scanKo pat s = true →
      ∀ r, reSearch pat (s ++ r) = reSearch pat r := by
  intro s
  induction s with
  | nil => intro _ r; rfl
  | cons c rest ih =>
    intro h r
    simp only [scanKo, Bool.and_eq_true] at h
    obtain ⟨h1, h2⟩ := h
    have hstrip : stripPref pat ((c :: rest) ++ r) = none :=
      stripPref_none_of_mismatches pat (c :: rest) h1 r
    rw [List.cons_append] at hstrip ⊢
    rw [reSearch_cons_none hstrip]
    exact ih h2 r

/-- Helper for C4: a matched literal is contained in the string it matched. -/
theorem mem_of_stripPref :
    ∀ (pat s t : List Char), stripPref pat s = some t → ∀ x ∈ pat, x ∈ s := by
  intro pat
  induction pat with
  | nil => intro s t _ x hx; simp at hx
  | cons p ps ih =>
    intro s t h x hx
    cases s with
    | nil => simp [stripPref] at h
    | cons c cs =>
      simp only [stripPref] at h
      by_cases hpc : p = c
      · rw [if_pos hpc] at h
        rcases List.mem_cons.mp hx with rfl | hmem
        · rw [hpc]; exact List.mem_cons_self c cs
        · exact List.mem_cons_of_mem _ (ih cs t h x hmem)
      · rw [if_neg hpc] at h
        cases h

/-- Helper for C4: a pattern containing a non-alphanumeric character never
matches inside a purely alphanumeric string. -/
theorem reSearch_alnum_none (pat : List Char) (c0 : Char) (hc0 : c0 ∈ pat)
    (hc0n : isAlnum c0 = false) :
    ∀ s : List Char, (∀ c ∈ s, isAlnum c = true) → reSearch pat s = none := by
  intro s
  induction s with
  | nil => intro _; rfl
  | cons a cs ih =>
    intro hall
    cases hsp : stripPref pat (a :: cs) with
    | some t =>
      exfalso
      have hmem := mem_of_stripPref pat (a :: cs) t hsp c0 hc0
      have := hall c0 hmem
      rw [hc0n] at this
      cases this
    | none =>
      rw [reSearch_cons_none hsp]
      exact ih (fun c hc => hall c (List.mem_cons_of_mem _ hc))

/-- Helper for C4: a literal strips itself off the front. -/
theorem stripPref_self_append : ∀ (p r : List Char), stripPref p (p ++ r) = some r := by
  intro p
  induction p with
  | nil => intro r; rfl
  | cons a ps ih =>
    intro r
    show stripPref (a :: ps) ((a :: ps) ++ r) = some r
    rw [List.cons_append]
    simp only [stripPref, if_pos rfl]
    exact ih r

/-- Helper for C4: `takeWhile` keeps a fully alphanumeric string whole. -/
theorem takeWhile_isAlnum_self :
    ∀ id : List Char, (∀ c ∈ id, isAlnum c = true) →
      id.takeWhile isAlnum = id := by
  intro id
  induction id with
  | nil => intro _; rfl
  | cons a cs ih =>
    intro h
    rw [List.takeWhile_cons, if_pos (h a (List.mem_cons_self a cs))]
    rw [ih (fun c hc => h c (List.mem_cons_of_mem _ hc))]

/-- Helper for C4: a match right at the head captures the maximal
alphanumeric run of the remainder. -/
theorem reSearch_hit_gen (pat tail : List Char) (hp : pat ≠ [])
    (ht : tail.takeWhile isAlnum ≠ []) :
    reSearch pat (pat ++ tail) = some (tail.takeWhile isAlnum) := by
  cases pat with
  | nil => exact absurd rfl hp
  | cons p ps =>
    have hstrip : stripPref (p :: ps) ((p :: ps) ++ tail) = some tail :=
      stripPref_self_append _ _
    rw [List.cons_append] at hstrip ⊢
    exact reSearch_cons_tail hstrip ht

/-- Helper for C4: a match right at the head of a fully alphanumeric id
captures the whole id. -/
theorem reSearch_hit (pat id : List Char) (hp : pat ≠ []) (hne : id ≠ [])
    (hall : ∀ c ∈ id, isAlnum c = true) :
    reSearch pat (pat ++ id) = some id := by
  have htw : id.takeWhile isAlnum = id := takeWhile_isAlnum_self id hall
  have h := reSearch_hit_gen pat id hp (by rw [htw]; exact hne)
  rw [htw] at h
  exact h

/-- Helper for C4: a pattern that mismatches at every position of the
template never matches the template-plus-alphanumeric-id string. -/
theorem reSearch_tmpl_none (pat tmpl id : List Char)
    (hko : scanKo pat tmpl = true)
    (c0 : Char) (hc0 : c0 ∈ pat) (hc0n : isAlnum c0 = false)
    (hall : ∀ c ∈ id, isAlnum c = true) :
    reSearch pat (tmpl ++ id) = none := by
  rw [reSearch_append_ko pat tmpl hko id]
  exact reSearch_alnum_none pat c0 hc0 hc0n id hall

/-- Helper for C4: a pattern occurring right after a mismatching concrete
region captures exactly the alphanumeric id. -/
theorem reSearch_tmpl_some (pat pre id : List Char)
    (hko : scanKo pat pre = true) (hp : pat ≠ []) (hne : id ≠ [])
    (hall : ∀ c ∈ id, isAlnum c = true) :
    reSearch pat (pre ++ (pat ++ id)) = some id := by
  rw [reSearch_append_ko pat pre hko]
  exact reSearch_hit pat id hp hne hall

/-- Helper for C4: the full-https track template. -/
theorem extract_track_full (id : List Char) (hne : id ≠ [])
    (hall : ∀ c ∈ id, isAlnum c = true) :
    extractSpotifyId ("https://open.spotify.com/track/".data ++ id) =
      some ("track", id) := by
  have t1 : reSearch "open.spotify.com/track/".data
      ("https://open.spotify.com/track/".data ++ id) = some id := by
    rw [show ("https://open.spotify.com/track/".data : List Char) =
        "https://".data ++ "open.spotify.com/track/".data from rfl,
      List.append_assoc]
    exact reSearch_tmpl_some _ _ _ (by decide) (by decide) hne hall
  simp only [extractSpotifyId, trackPats, tryPats, t1]

/-- Helper for C4: the https track template without `open.`. -/
theorem extract_track_bare (id : List Char) (hne : id ≠ [])
    (hall : ∀ c ∈ id, isAlnum c = true) :
    extractSpotifyId ("https://spotify.com/track/".data ++ id) =
      some ("track", id) := by
  have t1 : reSearch "open.spotify.com/track/".data
      ("https://spotify.com/track/".data ++ id) = none :=
    reSearch_tmpl_none _ _ _ (by decide) '.' (by decide) (by decide) hall
  have t2 : reSearch "spotify.com/track/".data
      ("https://spotify.com/track/".data ++ id) = some id := by
    rw [show ("https://spotify.com/track/".data : List Char) =
        "https://".data ++ "spotify.com/track/".data from rfl,
      List.append_assoc]
    exact reSearch_tmpl_some _ _ _ (by decide) (by decide) hne hall
  simp only [extractSpotifyId, trackPats, tryPats, t1, t2]

/-- Helper for C4: the URI track template. -/
theorem extract_track_uri (id : List Char) (hne : id ≠ [])
    (hall : ∀ c ∈ id, isAlnum c = true) :
    extractSpotifyId ("spotify:track:".data ++ id) = some ("track", id) := by
  have t1 : reSearch "open.spotify.com/track/".data
      ("spotify:track:".data ++ id) = none :=
    reSearch_tmpl_none _ _ _ (by decide) '.' (by decide) (by decide) hall
  have t2 : reSearch "spotify.com/track/".data
      ("spotify:track:".data ++ id) = none :=
    reSearch_tmpl_none _ _ _ (by decide) '.' (by decide) (by decide) hall
  have t3 : reSearch "spotify:track:".data
      ("spotify:track:".data ++ id) = some id :=
    reSearch_hit _ _ (by decide) hne hall
  simp only [extractSpotifyId, trackPats, tryPats, t1, t2, t3]

/-- Helper for C4: the scheme-less track template with `open.`. -/
theorem extract_track_noscheme_open (id : List Char) (hne : id ≠ [])
    (hall : ∀ c ∈ id, isAlnum c = true) :
    extractSpotifyId ("open.spotify.com/track/".data ++ id) =
      some ("track", id) := by
  have t1 : reSearch "open.spotify.com/track/".data
      ("open.spotify.com/track/".data ++ id) = some id :=
    reSearch_hit _ _ (by decide) hne hall
  simp only [extractSpotifyId, trackPats, tryPats, t1]

/-- Helper for C4: the scheme-less track template without `open.`. -/
theorem extract_track_noscheme_bare (id : List Char) (hne : id ≠ [])
    (hall : ∀ c ∈ id, isAlnum c = true) :
    extractSpotifyId ("spotify.com/track/".data ++ id) = some ("track", id) := by
  have t1 : reSearch "open.spotify.com/track/".data
      ("spotify.com/track/".data ++ id) = none :=
    reSearch_tmpl_none _ _ _ (by decide) '.' (by decide) (by decide) hall
  have t2 : reSearch "spotify.com/track/".data
      ("spotify.com/track/".data ++ id) = some id :=
    reSearch_hit _ _ (by decide) hne hall
  simp only [extractSpotifyId, trackPats, tryPats, t1, t2]

/-- Helper for C4: the full-https album template. -/
theorem extract_album_full (id : List Char) (hne : id ≠ [])
    (hall : ∀ c ∈ id, isAlnum c = true) :
    extractSpotifyId ("https://open.spotify.com/album/".data ++ id) =
      some ("album", id) := by
  have t1 : reSearch "open.spotify.com/track/".data
      ("https://open.spotify.com/album/".data ++ id) = none :=
    reSearch_tmpl_none _ _ _ (by decide) '.' (by decide) (by decide) hall
  have t2 : reSearch "spotify.com/track/".data
      ("https://open.spotify.com/album/".data ++ id) = none :=
    reSearch_tmpl_none _ _ _ (by decide) '.' (by decide) (by decide) hall
  have t3 : reSearch "spotify:track:".data
      ("https://open.spotify.com/album/".data ++ id) = none :=
    reSearch_tmpl_none _ _ _ (by decide) ':' (by decide) (by decide) hall
  have a1 : reSearch "open.spotify.com/album/".data
      ("https://open.spotify.com/album/".data ++ id) = some id := by
    rw [show ("https://open.spotify.com/album/".data : List Char) =
        "https://".data ++ "open.spotify.com/album/".data from rfl,
      List.append_assoc]
    exact reSearch_tmpl_some _ _ _ (by decide) (by decide) hne hall
  simp only [extractSpotifyId, trackPats, albumPats, tryPats, t1, t2, t3, a1]

/-- Helper for C4: the https album template without `open.`. -/
theorem extract_album_bare (id : List Char) (hne : id ≠ [])
    (hall : ∀ c ∈ id, isAlnum c = true) :
    extractSpotifyId ("https://spotify.com/album/".data ++ id) =
      some ("album", id) := by
  have t1 : reSearch "open.spotify.com/track/".data
      ("https://spotify.com/album/".data ++ id) = none :=
    reSearch_tmpl_none _ _ _ (by decide) '.' (by decide) (by decide) hall
  have t2 : reSearch "spotify.com/track/".data
      ("https://spotify.com/album/".data ++ id) = none :=
    reSearch_tmpl_none _ _ _ (by decide) '.' (by decide) (by decide) hall
  have t3 : reSearch "spotify:track:".data
      ("https://spotify.com/album/".data ++ id) = none :=
    reSearch_tmpl_none _ _ _ (by decide) ':' (by decide) (by decide) hall
  have a1 : reSearch "open.spotify.com/album/".data
      ("https://spotify.com/album/".data ++ id) = none :=
    reSearch_tmpl_none _ _ _ (by decide) '.' (by decide) (by decide) hall
  have a2 : reSearch "spotify.com/album/".data
      ("https://spotify.com/album/".data ++ id) = some id := by
    rw [show ("https://spotify.com/album/".data : List Char) =
        "https://".data ++ "spotify.com/album/".data from rfl,
      List.append_assoc]
    exact reSearch_tmpl_some _ _ _ (by decide) (by decide) hne hall
  simp only [extractSpotifyId, trackPats, albumPats, tryPats, t1, t2, t3, a1, a2]

/-- Helper for C4: the URI album template. -/
theorem extract_album_uri (id : List Char) (hne : id ≠ [])
    (hall : ∀ c ∈ id, isAlnum c = true) :
    extractSpotifyId ("spotify:album:".data ++ id) = some ("album", id) := by
  have t1 : reSearch "open.spotify.com/track/".data
      ("spotify:album:".data ++ id) = none :=
    reSearch_tmpl_none _ _ _ (by decide) '.' (by decide) (by decide) hall
  have t2 : reSearch "spotify.com/track/".data
      ("spotify:album:".data ++ id) = none :=
    reSearch_tmpl_none _ _ _ (by decide) '.' (by decide) (by decide) hall
  have t3 : reSearch "spotify:track:".data
      ("spotify:album:".data ++ id) = none :=
    reSearch_tmpl_none _ _ _ (by decide) ':' (by decide) (by decide) hall
  have a1 : reSearch "open.spotify.com/album/".data
      ("spotify:album:".data ++ id) = none :=
    reSearch_tmpl_none _ _ _ (by decide) '.' (by decide) (by decide) hall
  have a2 : reSearch "spotify.com/album/".data
      ("spotify:album:".data ++ id) = none :=
    reSearch_tmpl_none _ _ _ (by decide) '.' (by decide) (by decide) hall
  have a3 : reSearch "spotify:album:".data
      ("spotify:album:".data ++ id) = some id :=
    reSearch_hit _ _ (by decide) hne hall
  simp only [extractSpotifyId, trackPats, albumPats, tryPats, t1, t2, t3, a1, a2, a3]

/-- Helper for C4: the scheme-less album template with `open.`. -/
theorem extract_album_noscheme_open (id : List Char) (hne : id ≠ [])
    (hall : ∀ c ∈ id, isAlnum c = true) :
    extractSpotifyId ("open.spotify.com/album/".data ++ id) =
      some ("album", id) := by
  have t1 : reSearch "open.spotify.com/track/".data
      ("open.spotify.com/album/".data ++ id) = none :=
    reSearch_tmpl_none _ _ _ (by decide) '.' (by decide) (by decide) hall
  have t2 : reSearch "spotify.com/track/".data
      ("open.spotify.com/album/".data ++ id) = none :=
    reSearch_tmpl_none _ _ _ (by decide) '.' (by decide) (by decide) hall
  have t3 : reSearch "spotify:track:".data
      ("open.spotify.com/album/".data ++ id) = none :=
    reSearch_tmpl_none _ _ _ (by decide) ':' (by decide) (by decide) hall
  have a1 : reSearch "open.spotify.com/album/".data
      ("open.spotify.com/album/".data ++ id) = some id :=
    reSearch_hit _ _ (by decide) hne hall
  simp only [extractSpotifyId, trackPats, albumPats, tryPats, t1, t2, t3, a1]

/-- Helper for C4: the scheme-less album template without `open.`. -/
theorem extract_album_noscheme_bare (id : List Char) (hne : id ≠ [])
    (hall : ∀ c ∈ id, isAlnum c = true) :
    extractSpotifyId ("spotify.com/album/".data ++ id) = some ("album", id) := by
  have t1 : reSearch "open.spotify.com/track/".data
      ("spotify.com/album/".data ++ id) = none :=
    reSearch_tmpl_none _ _ _ (by decide) '.' (by decide) (by decide) hall
  have t2 : reSearch "spotify.com/track/".data
      ("spotify.com/album/".data ++ id) = none :=
    reSearch_tmpl_none _ _ _ (by decide) '.' (by decide) (by decide) hall
  have t3 : reSearch "spotify:track:".data
      ("spotify.com/album/".data ++ id) = none :=
    reSearch_tmpl_none _ _ _ (by decide) ':' (by decide) (by decide) hall
  have a1 : reSearch "open.spotify.com/album/".data
      ("spotify.com/album/".data ++ id) = none :=
    reSearch_tmpl_none _ _ _ (by decide) '.' (by decide) (by decide) hall
  have a2 : reSearch "spotify.com/album/".data
      ("spotify.com/album/".data ++ id) = some id :=
    reSearch_hit _ _ (by decide) hne hall
  simp only [extractSpotifyId, trackPats, albumPats, tryPats, t1, t2, t3, a1, a2]

/-- Helper for C4: the full-https playlist template. -/
theorem extract_playlist_full (id : List Char) (hne : id ≠ [])
    (hall : ∀ c ∈ id, isAlnum c = true) :
    extractSpotifyId ("https://open.spotify.com/playlist/".data ++ id) =
      some ("playlist", id) := by
  have t1 : reSearch "open.spotify.com/track/".data
      ("https://open.spotify.com/playlist/".data ++ id) = none :=
    reSearch_tmpl_none _ _ _ (by decide) '.' (by decide) (by decide) hall
  have t2 : reSearch "spotify.com/track/".data
      ("https://open.spotify.com/playlist/".data ++ id) = none :=
    reSearch_tmpl_none _ _ _ (by decide) '.' (by decide) (by decide) hall
  have t3 : reSearch "spotify:track:".data
      ("https://open.spotify.com/playlist/".data ++ id) = none :=
    reSearch_tmpl_none _ _ _ (by decide) ':' (by decide) (by decide) hall
  have a1 : reSearch "open.spotify.com/album/".data
      ("https://open.spotify.com/playlist/".data ++ id) = none :=
    reSearch_tmpl_none _ _ _ (by decide) '.' (by decide) (by decide) hall
  have a2 : reSearch "spotify.com/album/".data
      ("https://open.spotify.com/playlist/".data ++ id) = none :=
    reSearch_tmpl_none _ _ _ (by decide) '.' (by decide) (by decide) hall
  have a3 : reSearch "spotify:album:".data
      ("https://open.spotify.com/playlist/".data ++ id) = none :=
    reSearch_tmpl_none _ _ _ (by decide) ':' (by decide) (by decide) hall
  have p1 : reSearch "open.spotify.com/playlist/".data
      ("https://open.spotify.com/playlist/".data ++ id) = some id := by
    rw [show ("https://open.spotify.com/playlist/".data : List Char) =
        "https://".data ++ "open.spotify.com/playlist/".data from rfl,
      List.append_assoc]
    exact reSearch_tmpl_some _ _ _ (by decide) (by decide) hne hall
  simp only [extractSpotifyId, trackPats, albumPats, playlistPats, tryPats,
    t1, t2, t3, a1, a2, a3, p1]

/-- Helper for C4: the https playlist template without `open.`. -/
theorem extract_playlist_bare (id : List Char) (hne : id ≠ [])
    (hall : ∀ c ∈ id, isAlnum c = true) :
    extractSpotifyId ("https://spotify.com/playlist/".data ++ id) =
      some ("playlist", id) := by
  have t1 : reSearch "open.spotify.com/track/".data
      ("https://spotify.com/playlist/".data ++ id) = none :=
    reSearch_tmpl_none _ _ _ (by decide) '.' (by decide) (by decide) hall
  have t2 : reSearch "spotify.com/track/".data
      ("https://spotify.com/playlist/".data ++ id) = none :=
    reSearch_tmpl_none _ _ _ (by decide) '.' (by decide) (by decide) hall
  have t3 : reSearch "spotify:track:".data
      ("https://spotify.com/playlist/".data ++ id) = none :=
    reSearch_tmpl_none _ _ _ (by decide) ':' (by decide) (by decide) hall
  have a1 : reSearch "open.spotify.com/album/".data
      ("https://spotify.com/playlist/".data ++ id) = none :=
    reSearch_tmpl_none _ _ _ (by decide) '.' (by decide) (by decide) hall
  have a2 : reSearch "spotify.com/album/".data
      ("https://spotify.com/playlist/".data ++ id) = none :=
    reSearch_tmpl_none _ _ _ (by decide) '.' (by decide) (by decide) hall
  have a3 : reSearch "spotify:album:".data
      ("https://spotify.com/playlist/".data ++ id) = none :=
    reSearch_tmpl_none _ _ _ (by decide) ':' (by decide) (by decide) hall
  have p1 : reSearch "open.spotify.com/playlist/".data
      ("https://spotify.com/playlist/".data ++ id) = none :=
    reSearch_tmpl_none _ _ _ (by decide) '.' (by decide) (by decide) hall
  have p2 : reSearch "spotify.com/playlist/".data
      ("https://spotify.com/playlist/".data ++ id) = some id := by
    rw [show ("https://spotify.com/playlist/".data : List Char) =
        "https://".data ++ "spotify.com/playlist/".data from rfl,
      List.append_assoc]
    exact reSearch_tmpl_some _ _ _ (by decide) (by decide) hne hall
  simp only [extractSpotifyId, trackPats, albumPats, playlistPats, tryPats,
    t1, t2, t3, a1, a2, a3, p1, p2]

/-- Helper for C4: the URI playlist template. -/
theorem extract_playlist_uri (id : List Char) (hne : id ≠ [])
    (hall : ∀ c ∈ id, isAlnum c = true) :
    extractSpotifyId ("spotify:playlist:".data ++ id) = some ("playlist", id) := by
  have t1 : reSearch "open.spotify.com/track/".data
      ("spotify:playlist:".data ++ id) = none :=
    reSearch_tmpl_none _ _ _ (by decide) '.' (by decide) (by decide) hall
  have t2 : reSearch "spotify.com/track/".data
      ("spotify:playlist:".data ++ id) = none :=
    reSearch_tmpl_none _ _ _ (by decide) '.' (by decide) (by decide) hall
  have t3 : reSearch "spotify:track:".data
      ("spotify:playlist:".data ++ id) = none :=
    reSearch_tmpl_none _ _ _ (by decide) ':' (by decide) (by decide) hall
  have a1 : reSearch "open.spotify.com/album/".data
      ("spotify:playlist:".data ++ id) = none :=
    reSearch_tmpl_none _ _ _ (by decide) '.' (by decide) (by decide) hall
  have a2 : reSearch "spotify.com/album/".data
      ("spotify:playlist:".data ++ id) = none :=
    reSearch_tmpl_none _ _ _ (by decide) '.' (by decide) (by decide) hall
  have a3 : reSearch "spotify:album:".data
      ("spotify:playlist:".data ++ id) = none :=
    reSearch_tmpl_none _ _ _ (by decide) ':' (by decide) (by decide) hall
  have p1 : reSearch "open.spotify.com/playlist/".data
      ("spotify:playlist:".data ++ id) = none :=
    reSearch_tmpl_none _ _ _ (by decide) '.' (by decide) (by decide) hall
  have p2 : reSearch "spotify.com/playlist/".data
      ("spotify:playlist:".data ++ id) = none :=
    reSearch_tmpl_none _ _ _ (by decide) '.' (by decide) (by decide) hall
  have p3 : reSearch "spotify:playlist:".data
      ("spotify:playlist:".data ++ id) = some id :=
    reSearch_hit _ _ (by decide) hne hall
  simp only [extractSpotifyId, trackPats, albumPats, playlistPats, tryPats,
    t1, t2, t3, a1, a2, a3, p1, p2, p3]

/-- Helper for C4: the scheme-less playlist template with `open.`. -/
theorem extract_playlist_noscheme_open (id : List Char) (hne : id ≠ [])
    (hall : ∀ c ∈ id, isAlnum c = true) :
    extractSpotifyId ("open.spotify.com/playlist/".data ++ id) =
      some ("playlist", id) := by
  have t1 : reSearch "open.spotify.com/track/".data
      ("open.spotify.com/playlist/".data ++ id) = none :=
    reSearch_tmpl_none _ _ _ (by decide) '.' (by decide) (by decide) hall
  have t2 : reSearch "spotify.com/track/".data
      ("open.spotify.com/playlist/".data ++ id) = none :=
    reSearch_tmpl_none _ _ _ (by decide) '.' (by decide) (by decide) hall
  have t3 : reSearch "spotify:track:".data
      ("open.spotify.com/playlist/".data ++ id) = none :=
    reSearch_tmpl_none _ _ _ (by decide) ':' (by decide) (by decide) hall
  have a1 : reSearch "open.spotify.com/album/".data
      ("open.spotify.com/playlist/".data ++ id) = none :=
    reSearch_tmpl_none _ _ _ (by decide) '.' (by decide) (by decide) hall
  have a2 : reSearch "spotify.com/album/".data
      ("open.spotify.com/playlist/".data ++ id) = none :=
    reSearch_tmpl_none _ _ _ (by decide) '.' (by decide) (by decide) hall
  have a3 : reSearch "spotify:album:".data
      ("open.spotify.com/playlist/".data ++ id) = none :=
    reSearch_tmpl_none _ _ _ (by decide) ':' (by decide) (by decide) hall
  have p1 : reSearch "open.spotify.com/playlist/".data
      ("open.spotify.com/playlist/".data ++ id) = some id :=
    reSearch_hit _ _ (by decide) hne hall
  simp only [extractSpotifyId, trackPats, albumPats, playlistPats, tryPats,
    t1, t2, t3, a1, a2, a3, p1]

/-- Helper for C4: the scheme-less playlist template without `open.`. -/
theorem extract_playlist_noscheme_bare (id : List Char) (hne : id ≠ [])
    (hall : ∀ c ∈ id, isAlnum c = true) :
    extractSpotifyId ("spotify.com/playlist/".data ++ id) =
      some ("playlist", id) := by
  have t1 : reSearch "open.spotify.com/track/".data
      ("spotify.com/playlist/".data ++ id) = none :=
    reSearch_tmpl_none _ _ _ (by decide) '.' (by decide) (by decide) hall
  have t2 : reSearch "spotify.com/track/".data
      ("spotify.com/playlist/".data ++ id) = none :=
    reSearch_tmpl_none _ _ _ (by decide) '.' (by decide) (by decide) hall
  have t3 : reSearch "spotify:track:".data
      ("spotify.com/playlist/".data ++ id) = none :=
    reSearch_tmpl_none _ _ _ (by decide) ':' (by decide) (by decide) hall
  have a1 : reSearch "open.spotify.com/album/".data
      ("spotify.com/playlist/".data ++ id) = none :=
    reSearch_tmpl_none _ _ _ (by decide) '.' (by decide) (by decide) hall
  have a2 : reSearch "spotify.com/album/".data
      ("spotify.com/playlist/".data ++ id) = none :=
    reSearch_tmpl_none _ _ _ (by decide) '.' (by decide) (by decide) hall
  have a3 : reSearch "spotify:album:".data
      ("spotify.com/playlist/".data ++ id) = none :=
    reSearch_tmpl_none _ _ _ (by decide) ':' (by decide) (by decide) hall
  have p1 : reSearch "open.spotify.com/playlist/".data
      ("spotify.com/playlist/".data ++ id) = none :=
    reSearch_tmpl_none _ _ _ (by decide) '.' (by decide) (by decide) hall
  have p2 : reSearch "spotify.com/playlist/".data
      ("spotify.com/playlist/".data ++ id) = some id :=
    reSearch_hit _ _ (by decide) hne hall
  simp only [extractSpotifyId, trackPats, albumPats, playlistPats, tryPats,
    t1, t2, t3, a1, a2, a3, p1, p2]

/-- Helper for C4: a hyphenated id position yields the alphanumeric prefix,
for any continuation of the string. -/
theorem extract_hyphen (rest : List Char) :
    extractSpotifyId ("https://open.spotify.com/track/abc-".data ++ rest) =
      some ("track", "abc".data) := by
  have htw : (("abc-".data ++ rest).takeWhile isAlnum) = "abc".data := by
    show (('a' :: 'b' :: 'c' :: '-' :: rest).takeWhile isAlnum) = "abc".data
    rw [List.takeWhile_cons, if_pos (by decide)]
    rw [List.takeWhile_cons, if_pos (by decide)]
    rw [List.takeWhile_cons, if_pos (by decide)]
    rw [List.takeWhile_cons, if_neg (by decide)]
  have e1 : reSearch "open.spotify.com/track/".data
      ("https://open.spotify.com/track/abc-".data ++ rest) = some "abc".data := by
    rw [show ("https://open.spotify.com/track/abc-".data : List Char) =
        "https://".data ++ ("open.spotify.com/track/".data ++ "abc-".data) from rfl,
      List.append_assoc, List.append_assoc]
    rw [reSearch_append_ko _ _ (by decide)]
    have h := reSearch_hit_gen "open.spotify.com/track/".data
      ("abc-".data ++ rest) (by decide) (by rw [htw]; decide)
    rw [htw] at h
    exact h
  simp only [extractSpotifyId, trackPats, tryPats, e1]

/-- C4 (amended): inserting a nonempty alphanumeric id into any of the five
recognized templates for each of the three kinds, the classifier returns the
correct (kind, id) pair with track-before-album-before-playlist precedence;
but when the id position holds an alphanumeric prefix followed by a
disallowed character such as a hyphen, the classifier returns the kind with
that prefix as the id rather than None (None only arises when no
alphanumeric character follows the id position). -/
theorem c4_classifier :
    (∀ id : List Char, id ≠ [] → (∀ c ∈ id, isAlnum c = true) →
      extractSpotifyId ("https://open.spotify.com/track/".data ++ id) = some ("track", id) ∧
      extractSpotifyId ("https://spotify.com/track/".data ++ id) = some ("track", id) ∧
      extractSpotifyId ("spotify:track:".data ++ id) = some ("track", id) ∧
      extractSpotifyId ("open.spotify.com/track/".data ++ id) = some ("track", id) ∧
      extractSpotifyId ("spotify.com/track/".data ++ id) = some ("track", id) ∧
      extractSpotifyId ("https://open.spotify.com/album/".data ++ id) = some ("album", id) ∧
      extractSpotifyId ("https://spotify.com/album/".data ++ id) = some ("album", id) ∧
      extractSpotifyId ("spotify:album:".data ++ id) = some ("album", id) ∧
      extractSpotifyId ("open.spotify.com/album/".data ++ id) = some ("album", id) ∧
      extractSpotifyId ("spotify.com/album/".data ++ id) = some ("album", id) ∧
      extractSpotifyId ("https://open.spotify.com/playlist/".data ++ id) = some ("playlist", id) ∧
      extractSpotifyId ("https://spotify.com/playlist/".data ++ id) = some ("playlist", id) ∧
      extractSpotifyId ("spotify:playlist:".data ++ id) = some ("playlist", id) ∧
      extractSpotifyId ("open.spotify.com/playlist/".data ++ id) = some ("playlist", id) ∧
      extractSpotifyId ("spotify.com/playlist/".data ++ id) = some ("playlist", id)) ∧
    (∀ rest : List Char,
      extractSpotifyId ("https://open.spotify.com/track/abc-".data ++ rest) =
        some ("track", "abc".data)) := by
  constructor
  · intro id hne hall
    exact ⟨extract_track_full id hne hall, extract_track_bare id hne hall,
      extract_track_uri id hne hall, extract_track_noscheme_open id hne hall,
      extract_track_noscheme_bare id hne hall, extract_album_full id hne hall,
      extract_album_bare id hne hall, extract_album_uri id hne hall,
      extract_album_noscheme_open id hne hall, extract_album_noscheme_bare id hne hall,
      extract_playlist_full id hne hall, extract_playlist_bare id hne hall,
      extract_playlist_uri id hne hall, extract_playlist_noscheme_open id hne hall,
      extract_playlist_noscheme_bare id hne hall⟩
  · exact extract_hyphen

/-- Witness for C4: the alphanumeric id "abc123" in the first template is
classified as a track with the full id. -/
theorem c4_classifier_witness :
    ("abc123".data ≠ [] ∧ (∀ c ∈ "abc123".data, isAlnum c = true)) ∧
    extractSpotifyId ("https://open.spotify.com/track/".data ++ "abc123".data) =
      some ("track", "abc123".data) :=
  ⟨⟨by decide, by decide⟩,
    (c4_classifier.1 "abc123".data (by decide) (by decide)).1⟩

/-- Counterexample for C4: the hyphenated id "abc-def" does not make the
classifier return None; `re.search` finds the alphanumeric prefix "abc"
and the classifier returns ("track", "abc"). -/
theorem c4_hyphen_counterexample :
    extractSpotifyId "https://open.spotify.com/track/abc-def".data =
      some ("track", "abc".data) ∧
    extractSpotifyId "https://open.spotify.com/track/abc-def".data ≠ none := by
  constructor <;> decide

end SpotBot
